import Mathlib

/-!
Verification of the poll/survey XBlock core logic (`poll/poll.py`).

Python dictionaries are modelled as insertion-ordered association lists
(`Dict α := List (String × α)`): `dinsert` updates the value in place when
the key is present and appends otherwise, `dlookup` returns the first
binding, exactly matching CPython dict semantics on duplicate-free key
lists.  Python integers are `Int`.  A Python value that may be `None` is an
`Option`.  Handlers that mutate XBlock fields are state-passing functions
returning the response together with the updated state.
-/

set_option maxHeartbeats 1000000

/-- Association-list model of a Python `dict` (insertion ordered). -/
abbrev Dict (α : Type) := List (String × α)

/-- First binding of `k`, as CPython lookup on a duplicate-free dict. -/
def dlookup {α : Type} : Dict α → String → Option α
  | [], _ => none
  | (k', v) :: rest, k => if k' = k then some v else dlookup rest k

/-- Python `k in d`. -/
def dmember {α : Type} (d : Dict α) (k : String) : Bool :=
  (dlookup d k).isSome

/-- Python `d.get(k, fallback)`. -/
def dgetD {α : Type} (d : Dict α) (k : String) (fallback : α) : α :=
  (dlookup d k).getD fallback

/-- Python `d[k] = v`: update in place when present, append otherwise. -/
def dinsert {α : Type} : Dict α → String → α → Dict α
  | [], k, v => [(k, v)]
  | (k', v') :: rest, k, v =>
    if k' = k then (k, v) :: rest else (k', v') :: dinsert rest k v

/-- Python `del d[k]` (no-op when the key is absent). -/
def derase {α : Type} (d : Dict α) (k : String) : Dict α :=
  d.filter (fun p => p.1 ≠ k)

/-- Python `d[k] = f d[k]` on an existing key (no-op when absent, a case
the source never reaches on the states the theorems quantify over). -/
def dmodify {α : Type} : Dict α → String → (α → α) → Dict α
  | [], _, _ => []
  | (k', v) :: rest, k, f =>
    if k' = k then (k', f v) :: dmodify rest k f else (k', v) :: dmodify rest k f

/-- Python `list(d.keys())`. -/
def dkeys {α : Type} (d : Dict α) : List String :=
  d.map Prod.fst

/-- Python `dict(pairs)`: later values win, first occurrence fixes position. -/
def dictOf {α : Type} (pairs : List (String × α)) : Dict α :=
  pairs.foldl (fun d p => dinsert d p.1 p.2) []

/-- Sum of the values of an integer-valued dict. -/
def dvalsum (d : Dict Int) : Int :=
  (d.map Prod.snd).sum

/-- Two-level lookup with fallback 0: `tally[q][a]` read totally. -/
def dgetD2 (t : Dict (Dict Int)) (q a : String) : Int :=
  dgetD (dgetD t q []) a 0

/-! ### Basic dictionary lemmas -/

theorem dlookup_dinsert {α : Type} (d : Dict α) (k k' : String) (v : α) :
    dlookup (dinsert d k v) k' = if k = k' then some v else dlookup d k' := by
  induction d with
  | nil => simp [dinsert, dlookup]
  | cons p rest ih =>
    obtain ⟨k₀, v₀⟩ := p
    simp only [dinsert]
    by_cases h : k₀ = k
    · subst h
      simp only [if_pos rfl, dlookup]
      by_cases h' : k₀ = k' <;> simp [h']
    · simp only [if_neg h, dlookup]
      by_cases h' : k₀ = k'
      · subst h'
        have hne : ¬ k = k₀ := fun he => h he.symm
        simp [hne]
      · simp [h', ih]

theorem dlookup_dmodify {α : Type} (d : Dict α) (k k' : String) (f : α → α) :
    dlookup (dmodify d k f) k' =
      if k = k' then (dlookup d k).map f else dlookup d k' := by
  induction d with
  | nil => simp [dmodify, dlookup]
  | cons p rest ih =>
    obtain ⟨k₀, v₀⟩ := p
    by_cases h : k₀ = k
    · subst h
      by_cases h' : k₀ = k'
      · subst h'
        simp [dmodify, dlookup]
      · simp [dmodify, dlookup, h', ih]
    · by_cases h' : k₀ = k'
      · subst h'
        have hne : k ≠ k₀ := fun he => h he.symm
        simp [dmodify, dlookup, h, hne, ih]
      · simp [dmodify, dlookup, h, h', ih]

theorem dkeys_dmodify {α : Type} (d : Dict α) (k : String) (f : α → α) :
    dkeys (dmodify d k f) = dkeys d := by
  induction d with
  | nil => rfl
  | cons p rest ih =>
    obtain ⟨k₀, v₀⟩ := p
    by_cases h : k₀ = k <;> simp [dmodify, h, dkeys] at ih ⊢ <;> exact ih

theorem dmember_iff_mem_dkeys {α : Type} (d : Dict α) (k : String) :
    dmember d k = true ↔ k ∈ dkeys d := by
  induction d with
  | nil => simp [dmember, dlookup, dkeys]
  | cons p rest ih =>
    obtain ⟨k₀, v₀⟩ := p
    by_cases h : k₀ = k
    · subst h
      simp [dmember, dlookup, dkeys]
    · simp [dmember, dlookup, h, dkeys, Ne.symm h] at ih ⊢
      exact ih

theorem dlookup_eq_none_iff {α : Type} (d : Dict α) (k : String) :
    dlookup d k = none ↔ k ∉ dkeys d := by
  constructor
  · intro h hk
    have := (dmember_iff_mem_dkeys d k).mpr hk
    simp [dmember, h] at this
  · intro h
    cases hl : dlookup d k with
    | none => rfl
    | some v =>
      exfalso
      exact h ((dmember_iff_mem_dkeys d k).mp (by simp [dmember, hl]))

theorem mem_dkeys_dinsert {α : Type} (d : Dict α) (k k₀ : String) (v₀ : α) :
    k ∈ dkeys (dinsert d k₀ v₀) ↔ k = k₀ ∨ k ∈ dkeys d := by
  rw [← dmember_iff_mem_dkeys, ← dmember_iff_mem_dkeys]
  unfold dmember
  rw [dlookup_dinsert]
  by_cases h : k₀ = k
  · subst h
    simp
  · rw [if_neg h]
    have hne : ¬ k = k₀ := fun he => h he.symm
    simp [hne]

theorem mem_dkeys_dictOf {α : Type} (pairs : List (String × α)) (k : String) :
    k ∈ dkeys (dictOf pairs) ↔ k ∈ pairs.map Prod.fst := by
  have main : ∀ (l : List (String × α)) (d : Dict α),
      k ∈ dkeys (l.foldl (fun d p => dinsert d p.1 p.2) d) ↔
        k ∈ dkeys d ∨ k ∈ l.map Prod.fst := by
    intro l
    induction l with
    | nil => intro d; simp
    | cons p rest ih =>
      intro d
      obtain ⟨k₀, v₀⟩ := p
      simp only [List.foldl_cons, ih, mem_dkeys_dinsert, List.map_cons, List.mem_cons]
      tauto
  have := main pairs []
  unfold dictOf
  rw [this]
  simp [dkeys]

theorem dmodify_of_not_mem {α : Type} (d : Dict α) (k : String) (f : α → α)
    (h : k ∉ dkeys d) : dmodify d k f = d := by
  induction d with
  | nil => rfl
  | cons p rest ih =>
    obtain ⟨k₀, v₀⟩ := p
    have hcons : dkeys ((k₀, v₀) :: rest) = k₀ :: dkeys rest := rfl
    rw [hcons, List.mem_cons] at h
    push_neg at h
    have h1 : ¬ k₀ = k := fun he => h.1 he.symm
    simp [dmodify, h1, ih h.2]

theorem dvalsum_dmodify (d : Dict Int) (k : String) (f : Int → Int) (v : Int)
    (hnd : (dkeys d).Nodup) (hl : dlookup d k = some v) :
    dvalsum (dmodify d k f) = dvalsum d - v + f v := by
  induction d with
  | nil => simp [dlookup] at hl
  | cons p rest ih =>
    obtain ⟨k₀, v₀⟩ := p
    have hcons : dkeys ((k₀, v₀) :: rest) = k₀ :: dkeys rest := rfl
    rw [hcons, List.nodup_cons] at hnd
    by_cases h : k₀ = k
    · subst h
      simp [dlookup] at hl
      subst hl
      have hrest : dmodify rest k₀ f = rest :=
        dmodify_of_not_mem rest k₀ f hnd.1
      simp [dmodify, hrest, dvalsum]
      ring
    · simp [dlookup, h] at hl
      have := ih hnd.2 hl
      simp [dmodify, h, dvalsum] at this ⊢
      omega

theorem dkeys_dinsert_eq {α : Type} (d : Dict α) (k : String) (v : α) :
    dkeys (dinsert d k v) = if k ∈ dkeys d then dkeys d else dkeys d ++ [k] := by
  induction d with
  | nil => simp [dinsert, dkeys]
  | cons p rest ih =>
    obtain ⟨k₀, v₀⟩ := p
    by_cases h : k₀ = k
    · subst h
      simp [dinsert, dkeys]
    · have hne : ¬ k = k₀ := fun he => h he.symm
      have hcons : dkeys ((k₀, v₀) :: rest) = k₀ :: dkeys rest := rfl
      have hstep : dkeys (dinsert ((k₀, v₀) :: rest) k v) = k₀ :: dkeys (dinsert rest k v) := by
        simp [dinsert, h, dkeys]
      have hmc : (k ∈ dkeys ((k₀, v₀) :: rest)) ↔ k ∈ dkeys rest := by
        rw [hcons, List.mem_cons]
        simp [hne]
      by_cases hm : k ∈ dkeys rest
      · rw [hstep, ih, if_pos hm, if_pos (hmc.mpr hm), hcons]
      · rw [hstep, ih, if_neg hm, if_neg (fun hx => hm (hmc.mp hx)), hcons]
        simp

theorem nodup_dkeys_dinsert {α : Type} (d : Dict α) (k : String) (v : α)
    (hnd : (dkeys d).Nodup) : (dkeys (dinsert d k v)).Nodup := by
  rw [dkeys_dinsert_eq]
  by_cases hm : k ∈ dkeys d
  · simp [hm, hnd]
  · simp [List.nodup_append, hm, hnd]

theorem dlookup_filterKeys {α : Type} (d : Dict α) (q : String → Bool) (k : String) :
    dlookup (d.filter (fun p => q p.1)) k =
      if q k = true then dlookup d k else none := by
  induction d with
  | nil => simp [dlookup]
  | cons p rest ih =>
    obtain ⟨k₀, v₀⟩ := p
    by_cases hq : q k₀ = true
    · by_cases h : k₀ = k
      · subst h
        simp [List.filter, hq, dlookup, ih]
      · simp [List.filter, hq, dlookup, h, ih]
    · by_cases h : k₀ = k
      · subst h
        simp [List.filter, hq, dlookup, ih]
      · simp [List.filter, hq, dlookup, h, ih]

theorem nodup_dkeys_filter {α : Type} (d : Dict α) (q : String × α → Bool)
    (hnd : (dkeys d).Nodup) : (dkeys (d.filter q)).Nodup := by
  have hsub : (d.filter q).Sublist d := List.filter_sublist d
  exact hnd.sublist (hsub.map Prod.fst)

/-! ### PollBlock and SurveyBlock state -/

/-- The value attached to a poll answer or survey question key (Python
`{'label': ..., 'img': ..., 'img_alt': ...}`; a Python `None` image is
modelled as the empty string, which has the same truthiness). -/
structure PollAnswer where
  label : String
  img : String
  imgAlt : String
deriving DecidableEq

/-- XBlock fields of `PollBlock` touched by the handlers under scrutiny. -/
structure PollState where
  question : String
  answers : List (String × PollAnswer)
  tally : Dict Int
  choice : Option String
  submissions_count : Int
  max_submissions : Int
  private_results : Bool
  feedback : String
  display_name : String
deriving DecidableEq

/-- `PollBase.can_vote`: `max_submissions == 0 or submissions_count < max_submissions`. -/
def can_vote (max_submissions submissions_count : Int) : Bool :=
  max_submissions == 0 || decide (submissions_count < max_submissions)

/-- `PollBlock.get_choice`: the stored choice when it is truthy and a key of
`dict(self.answers)`, else `None`.  The source performs no writes here. -/
def getChoice (s : PollState) : Option String :=
  match s.choice with
  | some c => if c ≠ "" ∧ dmember (dictOf s.answers) c then some c else none
  | none => none

/-- `PollBlock.clean_tally`: add every configured answer key missing from the
tally with count 0, then drop every tally key that is not a configured
answer key (the source iterates over a snapshot of `self.tally.keys()` while
deleting, which is exactly a filter). -/
def pollCleanTally (answers : Dict PollAnswer) (tally : Dict Int) : Dict Int :=
  let t1 := (dkeys answers).foldl
    (fun t key => if dmember t key then t else dinsert t key 0) tally
  t1.filter (fun p => dmember answers p.1)

/-- Response dictionary of the vote handlers.  The extra keys are only set
on some paths, hence the `Option`s. -/
structure VoteResult where
  success : Bool
  errors : List String
  can_vote : Option Bool
  submissions_count : Option Int
  max_submissions : Option Int
deriving DecidableEq

/-- `PollBlock.vote` restricted to requests whose body is a JSON object
with a missing (`none`) or string (`some`) choice.  Each early `return` of
the source is a branch; field assignments before a `return` persist, hence
the returned state.  `pollVoteJson` below extends this to arbitrary JSON
bodies, where the source can raise an uncaught `TypeError`. -/
def pollVote (s : PollState) (data : Option String) : VoteResult × PollState :=
  let old_choice := getChoice s
  if old_choice.isSome && !s.private_results then
    ({ success := false, errors := ["You have already voted in this poll."],
       can_vote := none, submissions_count := none, max_submissions := none }, s)
  else
    match data with
    | none =>
      ({ success := false, errors := ["Answer not included with request."],
         can_vote := none, submissions_count := none, max_submissions := none }, s)
    | some choice =>
      if (dlookup (dictOf s.answers) choice).isNone then
        ({ success := false,
           errors := ["No key " ++ choice ++ " in answers table."],
           can_vote := none, submissions_count := none, max_submissions := none }, s)
      else
        let s1 := if old_choice.isNone then { s with submissions_count := 0 } else s
        if !(can_vote s1.max_submissions s1.submissions_count) then
          ({ success := false,
             errors := ["You have already voted as many times as you are allowed."],
             can_vote := none, submissions_count := none, max_submissions := none }, s1)
        else
          let t0 := pollCleanTally (dictOf s1.answers) s1.tally
          let t1 := match old_choice with
            | some oc => dmodify t0 oc (fun n => n - 1)
            | none => t0
          let t2 := dmodify t1 choice (fun n => n + 1)
          let sc := s1.submissions_count + 1
          let s2 := { s1 with tally := t2, choice := some choice, submissions_count := sc }
          ({ success := true, errors := [],
             can_vote := some (can_vote s2.max_submissions s2.submissions_count),
             submissions_count := some sc, max_submissions := some s2.max_submissions }, s2)

theorem dlookup_addMissing (ks : List String) (t : Dict Int) (k : String) :
    dlookup (ks.foldl (fun t key => if dmember t key then t else dinsert t key 0) t) k =
      if dlookup t k = none ∧ k ∈ ks then some 0 else dlookup t k := by
  induction ks generalizing t with
  | nil => simp
  | cons k₀ rest ih =>
    simp only [List.foldl_cons]
    by_cases hm : dmember t k₀
    · rw [if_pos hm, ih]
      by_cases hk : dlookup t k = none
      · by_cases hr : k ∈ rest
        · simp [hk, hr]
        · by_cases hkk : k = k₀
          · subst hkk
            simp [dmember, hk] at hm
          · simp [hk, hr, hkk]
      · simp [hk]
    · rw [if_neg hm, ih, dlookup_dinsert]
      by_cases hkk : k₀ = k
      · subst hkk
        have hnone : dlookup t k₀ = none := by
          cases hl : dlookup t k₀ with
          | none => rfl
          | some v => exact absurd (by simp [dmember, hl]) hm
        simp [hnone]
      · have hne : ¬ k = k₀ := fun he => hkk he.symm
        simp [hkk, hne]

theorem nodup_addMissing (ks : List String) (t : Dict Int)
    (hnd : (dkeys t).Nodup) :
    (dkeys (ks.foldl (fun t key => if dmember t key then t else dinsert t key 0) t)).Nodup := by
  induction ks generalizing t with
  | nil => exact hnd
  | cons k₀ rest ih =>
    simp only [List.foldl_cons]
    by_cases hm : dmember t k₀
    · rw [if_pos hm]
      exact ih t hnd
    · rw [if_neg hm]
      exact ih _ (nodup_dkeys_dinsert t k₀ 0 hnd)

theorem pollCleanTally_lookup (A : Dict PollAnswer) (t : Dict Int) (k : String) :
    dlookup (pollCleanTally A t) k =
      if dmember A k then some (dgetD t k 0) else none := by
  unfold pollCleanTally
  rw [dlookup_filterKeys, dlookup_addMissing]
  by_cases hA : dmember A k
  · rw [if_pos hA, if_pos hA]
    have hk : k ∈ dkeys A := (dmember_iff_mem_dkeys A k).mp hA
    by_cases ht : dlookup t k = none
    · simp [ht, hk, dgetD]
    · simp [ht, hk, dgetD]
      cases hl : dlookup t k with
      | none => exact absurd hl ht
      | some v => simp
  · simp [hA]

theorem nodup_pollCleanTally (A : Dict PollAnswer) (t : Dict Int)
    (hnd : (dkeys t).Nodup) : (dkeys (pollCleanTally A t)).Nodup := by
  unfold pollCleanTally
  exact nodup_dkeys_filter _ _ (nodup_addMissing (dkeys A) t hnd)

theorem dkeys_pollCleanTally_mem (A : Dict PollAnswer) (t : Dict Int) (k : String) :
    k ∈ dkeys (pollCleanTally A t) ↔ dmember A k = true := by
  rw [← dmember_iff_mem_dkeys]
  unfold dmember
  rw [pollCleanTally_lookup]
  by_cases hA : dmember A k
  · rw [if_pos hA]
    exact ⟨fun _ => hA, fun _ => rfl⟩
  · rw [if_neg hA]
    constructor
    · intro hfalse
      simp at hfalse
    · intro hmem
      exact absurd hmem hA

theorem getChoice_some (s : PollState) (c : String) (h : getChoice s = some c) :
    s.choice = some c ∧ c ≠ "" ∧ dmember (dictOf s.answers) c = true := by
  unfold getChoice at h
  split at h
  next c' heq =>
    by_cases hcond : c' ≠ "" ∧ dmember (dictOf s.answers) c' = true
    · rw [if_pos hcond] at h
      cases h
      exact ⟨heq, hcond⟩
    · rw [if_neg hcond] at h
      simp at h
  next => simp at h

/-- C1 (amended): on a successful `PollBlock.vote` the user's stored choice
becomes the submitted choice; the submitted choice's counter (read with
default 0) rises by exactly 1, less 1 when the still-valid previous choice
was the same; the counter of a different still-valid previous choice drops
by 1; relative to the reconciled (`clean_tally`) tally the total sum rises
by 1 on a first or invalidated vote and is unchanged on a re-vote; a re-vote
is possible only when `private_results` is true; and `submissions_count` is
first reset to 0 when the previous stored choice was absent or invalid, then
incremented by 1 (so it does not always rise by exactly 1). -/
theorem C1_poll_vote_success_effects (s : PollState) (c : String) (r : VoteResult)
    (s' : PollState) (hnd : (dkeys s.tally).Nodup)
    (hv : pollVote s (some c) = (r, s')) (hs : r.success = true) :
    s'.choice = some c ∧
    s'.submissions_count = (if getChoice s = none then 0 else s.submissions_count) + 1 ∧
    dlookup s'.tally c =
      some (dgetD s.tally c 0 + 1 - (if getChoice s = some c then 1 else 0)) ∧
    (∀ old, getChoice s = some old → old ≠ c →
      dlookup s'.tally old = some (dgetD s.tally old 0 - 1)) ∧
    dvalsum s'.tally =
      dvalsum (pollCleanTally (dictOf s.answers) s.tally) +
        (if getChoice s = none then 1 else 0) ∧
    (getChoice s ≠ none → s.private_results = true) := by
  have hndC : (dkeys (pollCleanTally (dictOf s.answers) s.tally)).Nodup :=
    nodup_pollCleanTally _ _ hnd
  cases hold : getChoice s with
  | none =>
    simp [pollVote, hold] at hv
    split at hv
    · exfalso
      injection hv with h1 h2
      rw [← h1] at hs
      simp at hs
    · split at hv
      · exfalso
        injection hv with h1 h2
        rw [← h1] at hs
        simp at hs
      · rename_i hmem hcv
        injection hv with h1 h2
        subst h2
        have hA : dmember (dictOf s.answers) c = true := by
          unfold dmember
          cases hl : dlookup (dictOf s.answers) c with
          | none => exact absurd hl hmem
          | some v => rfl
        have hclean : dlookup (pollCleanTally (dictOf s.answers) s.tally) c
            = some (dgetD s.tally c 0) := by
          rw [pollCleanTally_lookup, if_pos hA]
        refine ⟨rfl, by simp, ?_, ?_, ?_, ?_⟩
        · show dlookup (dmodify (pollCleanTally (dictOf s.answers) s.tally) c
            (fun n => n + 1)) c = _
          rw [dlookup_dmodify, if_pos rfl, hclean]
          simp
        · intro old hobs
          simp at hobs
        · show dvalsum (dmodify (pollCleanTally (dictOf s.answers) s.tally) c
            (fun n => n + 1)) = _
          rw [dvalsum_dmodify _ c _ (dgetD s.tally c 0) hndC hclean]
          simp
          ring
        · intro hne
          exact absurd rfl hne
  | some oc =>
    have hocfacts := getChoice_some s oc hold
    simp [pollVote, hold] at hv
    split at hv
    · exfalso
      injection hv with h1 h2
      rw [← h1] at hs
      simp at hs
    · split at hv
      · exfalso
        injection hv with h1 h2
        rw [← h1] at hs
        simp at hs
      · split at hv
        · exfalso
          injection hv with h1 h2
          rw [← h1] at hs
          simp at hs
        · rename_i hpriv hmem hcv
          injection hv with h1 h2
          subst h2
          have hA : dmember (dictOf s.answers) c = true := by
            unfold dmember
            cases hl : dlookup (dictOf s.answers) c with
            | none => exact absurd hl hmem
            | some v => rfl
          have hclean : dlookup (pollCleanTally (dictOf s.answers) s.tally) c
              = some (dgetD s.tally c 0) := by
            rw [pollCleanTally_lookup, if_pos hA]
          have hcleanOc : dlookup (pollCleanTally (dictOf s.answers) s.tally) oc
              = some (dgetD s.tally oc 0) := by
            rw [pollCleanTally_lookup, if_pos hocfacts.2.2]
          have hnd1 : (dkeys (dmodify (pollCleanTally (dictOf s.answers) s.tally) oc
              (fun n => n - 1))).Nodup := by
            rw [dkeys_dmodify]
            exact hndC
          have hl1c : dlookup (dmodify (pollCleanTally (dictOf s.answers) s.tally) oc
              (fun n => n - 1)) c =
              some (dgetD s.tally c 0 - (if oc = c then 1 else 0)) := by
            rw [dlookup_dmodify]
            by_cases hoc : oc = c
            · rw [if_pos hoc, if_pos hoc]
              subst hoc
              rw [hclean]
              rfl
            · rw [if_neg hoc, if_neg hoc, hclean]
              simp
          refine ⟨rfl, by simp, ?_, ?_, ?_, ?_⟩
          · show dlookup (dmodify (dmodify (pollCleanTally (dictOf s.answers) s.tally) oc
              (fun n => n - 1)) c (fun n => n + 1)) c = _
            rw [dlookup_dmodify, if_pos rfl, hl1c]
            by_cases hoc : oc = c
            · subst hoc
              simp
            · have hne2 : ¬ (some oc = some c) := by simp [hoc]
              rw [if_neg hoc, if_neg hne2]
              simp
          · intro old hobs hone
            injection hobs with hobs
            rw [← hobs] at hone ⊢
            show dlookup (dmodify (dmodify (pollCleanTally (dictOf s.answers) s.tally) oc
              (fun n => n - 1)) c (fun n => n + 1)) oc = _
            rw [dlookup_dmodify, if_neg (fun he => hone he.symm), dlookup_dmodify,
              if_pos rfl, hcleanOc]
            rfl
          · show dvalsum (dmodify (dmodify (pollCleanTally (dictOf s.answers) s.tally) oc
              (fun n => n - 1)) c (fun n => n + 1)) = _
            rw [dvalsum_dmodify _ c _ (dgetD s.tally c 0 - (if oc = c then 1 else 0))
              hnd1 hl1c]
            rw [dvalsum_dmodify _ oc _ (dgetD s.tally oc 0) hndC hcleanOc]
            simp
            ring
          · intro hne
            simp at hpriv
            exact hpriv

/-- A poll whose stored choice "R" is no longer a configured answer, with two
prior submissions and unlimited `max_submissions`. -/
def c1ex : PollState :=
  { question := "q",
    answers := [("B", { label := "Blue", img := "", imgAlt := "" })],
    tally := [("B", 0)], choice := some "R", submissions_count := 2,
    max_submissions := 0, private_results := false, feedback := "",
    display_name := "" }

/-- C1 counterexample: this vote succeeds, yet `submissions_count` goes from
2 to 1 (the code resets it to 0 before incrementing when the stored choice
is invalid), so it is not "incremented by 1" as the claim states. -/
theorem C1_counterexample :
    (pollVote c1ex (some "B")).1.success = true ∧
    (pollVote c1ex (some "B")).2.submissions_count ≠
      c1ex.submissions_count + 1 := by decide

/-- A poll state for exercising the amended C1 theorem: fresh user, two
configured answers. -/
def c1w : PollState :=
  { question := "q",
    answers := [("R", { label := "Red", img := "", imgAlt := "" }),
                ("B", { label := "Blue", img := "", imgAlt := "" })],
    tally := [("R", 1), ("B", 0)], choice := none, submissions_count := 0,
    max_submissions := 1, private_results := false, feedback := "",
    display_name := "" }

theorem C1_witness :
    (dkeys c1w.tally).Nodup ∧
    (pollVote c1w (some "B")).1.success = true ∧
    (pollVote c1w (some "B")).2.choice = some "B" :=
  ⟨by decide, by decide,
    (C1_poll_vote_success_effects c1w "B" (pollVote c1w (some "B")).1
      (pollVote c1w (some "B")).2 (by decide) rfl (by decide)).1⟩

/-- C9: `PollBase.can_vote` is true iff `max_submissions` is 0 (unlimited) or
`submissions_count` is strictly below `max_submissions`; in particular with
`max_submissions = 0` voting is always permitted, and with the default
`max_submissions = 1` a user with `submissions_count ≥ 1` may not vote. -/
theorem C9_can_vote_spec :
    (∀ m sc : Int, can_vote m sc = true ↔ (m = 0 ∨ sc < m)) ∧
    (∀ sc : Int, can_vote 0 sc = true) ∧
    (∀ sc : Int, 1 ≤ sc → can_vote 1 sc = false) := by
  refine ⟨?_, ?_, ?_⟩
  · intro m sc
    unfold can_vote
    by_cases h : m = 0 <;> simp [h]
  · intro sc
    unfold can_vote
    simp
  · intro sc h
    unfold can_vote
    simp
    omega

theorem C9_witness :
    can_vote 0 5 = true ∧ (1 ≤ (2 : Int) ∧ can_vote 1 2 = false) :=
  ⟨C9_can_vote_spec.2.1 5, ⟨by decide, C9_can_vote_spec.2.2 2 (by decide)⟩⟩

/-- C5: `PollBlock.get_choice` returns the stored choice exactly when it is
non-empty and is a key of the configured answers, and `None` otherwise.  In
the embedding it is typed `PollState → Option String`: the source performs
no writes, so the stale choice, tally and submissions_count are untouched by
construction. -/
theorem C5_get_choice_spec (s : PollState) (c : String) :
    getChoice s = some c ↔
      s.choice = some c ∧ c ≠ "" ∧ c ∈ s.answers.map Prod.fst := by
  constructor
  · intro h
    obtain ⟨h1, h2, h3⟩ := getChoice_some s c h
    exact ⟨h1, h2,
      (mem_dkeys_dictOf s.answers c).mp ((dmember_iff_mem_dkeys _ c).mp h3)⟩
  · rintro ⟨h1, h2, h3⟩
    have hmem : dmember (dictOf s.answers) c = true :=
      (dmember_iff_mem_dkeys _ c).mpr ((mem_dkeys_dictOf s.answers c).mpr h3)
    unfold getChoice
    rw [h1]
    simp [h2, hmem]

/-- A JSON value usable as a request-body field such as `data['choice']`.
Array and object payloads are not carried: `vote` only ever uses the value
as a dict key, and CPython raises `TypeError: unhashable type` on any list
or dict key before inspecting its contents. -/
inductive JChoice where
  | jstr (s : String)
  | jnum (n : Int)
  | jbool (b : Bool)
  | jnull
  | jarr
  | jobj
deriving DecidableEq

/-- Python's `str()` of a hashable JSON value, as interpolated into the
`No key "{choice}" in answers table.` message (arbitrary on the unhashable
values, which raise before reaching that `format` call). -/
def JChoice.pyStr : JChoice → String
  | JChoice.jstr s => s
  | JChoice.jnum n => toString n
  | JChoice.jbool true => "True"
  | JChoice.jbool false => "False"
  | JChoice.jnull => "None"
  | JChoice.jarr => ""
  | JChoice.jobj => ""

/-- A vote request body as decoded by the `json_handler` wrapper: either
not a JSON object at all, or an object given as its field map (`vote` only
ever reads the `choice` field). -/
inductive JBody where
  | notDict
  | dict (fields : Dict JChoice)
deriving DecidableEq

/-- `PollBlock.vote` on a raw JSON request body; `none` models an uncaught
exception.  The already-voted check runs before `data` is touched.  A
non-dict body raises `TypeError` at `data['choice']`, and an unhashable
choice (a JSON array or object) raises `TypeError` at
`OrderedDict(self.answers)[choice]` — the `except KeyError` clauses catch
neither.  A dict body whose choice is missing or a string continues exactly
as `pollVote`; a hashable non-string choice (number, bool, null) never
equals a string answer key, so it takes the caught-`KeyError` branch. -/
def pollVoteJson (s : PollState) (data : JBody) : Option (VoteResult × PollState) :=
  if (getChoice s).isSome && !s.private_results then
    some ({ success := false, errors := ["You have already voted in this poll."],
            can_vote := none, submissions_count := none,
            max_submissions := none }, s)
  else
    match data with
    | JBody.notDict => none
    | JBody.dict fields =>
      match dlookup fields "choice" with
      | none => some (pollVote s none)
      | some (JChoice.jstr c) => some (pollVote s (some c))
      | some JChoice.jarr => none
      | some JChoice.jobj => none
      | some c =>
        some ({ success := false,
                errors := ["No key " ++ c.pyStr ++ " in answers table."],
                can_vote := none, submissions_count := none,
                max_submissions := none }, s)

theorem pollVoteJson_already (s : PollState) (b : JBody)
    (hav : ((getChoice s).isSome && !s.private_results) = true) :
    pollVoteJson s b =
      some ({ success := false,
              errors := ["You have already voted in this poll."],
              can_vote := none, submissions_count := none,
              max_submissions := none }, s) := by
  simp only [pollVoteJson]
  rw [if_pos hav]

/-- On a request whose choice is absent or an unknown string, `pollVote`
returns an error result with exactly one message and no mutation. -/
theorem pollVote_malformed_result (s : PollState) (data : Option String)
    (h : data = none ∨ ∃ c, data = some c ∧ dlookup (dictOf s.answers) c = none) :
    ∃ r, pollVote s data = (r, s) ∧ r.success = false ∧ r.errors.length = 1 := by
  rcases h with h | ⟨c, hc, hl⟩
  · subst h
    simp only [pollVote]
    split
    · refine ⟨_, rfl, ?_, ?_⟩ <;> rfl
    · refine ⟨_, rfl, ?_, ?_⟩ <;> rfl
  · subst hc
    have his : (dlookup (dictOf s.answers) c).isNone = true := by
      simp [hl]
    simp only [pollVote]
    split
    · refine ⟨_, rfl, ?_, ?_⟩ <;> rfl
    · refine ⟨_, rfl, ?_, ?_⟩ <;> rfl

/-- C8 (amended): for a JSON-object request whose `choice` key is missing,
or whose choice is a string that is not a configured answer key,
`PollBlock.vote` returns success `False` with exactly one user-facing error
message and leaves the block state unchanged; but `vote` is not
exception-free on malformed input: unless the already-voted check returns
first, a non-dict request body raises an uncaught `TypeError` at
`data['choice']`, and an unhashable choice value (a JSON array or object)
raises an uncaught `TypeError` at `OrderedDict(self.answers)[choice]`,
modelled as `none` — no result is returned. -/
theorem C8_poll_vote_malformed (s : PollState) (fields : Dict JChoice) :
    (dlookup fields "choice" = none →
      ∃ r, pollVoteJson s (JBody.dict fields) = some (r, s) ∧
        r.success = false ∧ r.errors.length = 1) ∧
    (∀ c, dlookup fields "choice" = some (JChoice.jstr c) →
      dlookup (dictOf s.answers) c = none →
      ∃ r, pollVoteJson s (JBody.dict fields) = some (r, s) ∧
        r.success = false ∧ r.errors.length = 1) ∧
    (((getChoice s).isSome && !s.private_results) = false →
      pollVoteJson s JBody.notDict = none) ∧
    (((getChoice s).isSome && !s.private_results) = false →
      (dlookup fields "choice" = some JChoice.jarr ∨
        dlookup fields "choice" = some JChoice.jobj) →
      pollVoteJson s (JBody.dict fields) = none) := by
  cases hav : ((getChoice s).isSome && !s.private_results) with
  | true =>
    refine ⟨?_, ?_, ?_, ?_⟩
    · intro _
      refine ⟨_, pollVoteJson_already s _ hav, ?_, ?_⟩ <;> rfl
    · intro c _ _
      refine ⟨_, pollVoteJson_already s _ hav, ?_, ?_⟩ <;> rfl
    · intro hc
      exact absurd hc (by decide)
    · intro hc _
      exact absurd hc (by decide)
  | false =>
    have hnot : ¬(((getChoice s).isSome && !s.private_results) = true) := by
      intro h
      rw [hav] at h
      exact absurd h (by decide)
    refine ⟨?_, ?_, ?_, ?_⟩
    · intro h
      have hstep : pollVoteJson s (JBody.dict fields) = some (pollVote s none) := by
        simp only [pollVoteJson]
        rw [if_neg hnot, h]
      rw [hstep]
      obtain ⟨r, hr, h1, h2⟩ := pollVote_malformed_result s none (Or.inl rfl)
      exact ⟨r, by rw [hr], h1, h2⟩
    · intro c hlk hketc
      have hstep : pollVoteJson s (JBody.dict fields) =
          some (pollVote s (some c)) := by
        simp only [pollVoteJson]
        rw [if_neg hnot, hlk]
      rw [hstep]
      obtain ⟨r, hr, h1, h2⟩ := pollVote_malformed_result s (some c)
        (Or.inr ⟨c, rfl, hketc⟩)
      exact ⟨r, by rw [hr], h1, h2⟩
    · intro _
      simp only [pollVoteJson]
      rw [if_neg hnot]
    · intro _ hlk
      rcases hlk with hlk | hlk <;>
        (simp only [pollVoteJson]; rw [if_neg hnot, hlk])

/-- A poll state for the C8 theorems: one configured answer, fresh user,
public results (so the already-voted check does not short-circuit). -/
def c8w : PollState :=
  { question := "q",
    answers := [("R", { label := "Red", img := "", imgAlt := "" })],
    tally := [("R", 0)], choice := none, submissions_count := 0,
    max_submissions := 1, private_results := false, feedback := "",
    display_name := "" }

/-- C8 counterexample: the request body `{"choice": []}` is malformed input
whose choice is not a configured answer key, yet `vote` does not return an
error result: `OrderedDict(self.answers)[choice]` raises `TypeError`
(a list is unhashable) which `except KeyError` does not catch, so the
exception escapes the handler (`none`); the first conjunct shows the
already-voted check did not short-circuit. -/
theorem C8_counterexample :
    (getChoice c8w).isSome = false ∧
    pollVoteJson c8w (JBody.dict [("choice", JChoice.jarr)]) = none := by decide

theorem C8_witness :
    (∃ r, pollVoteJson c8w (JBody.dict []) = some (r, c8w) ∧
      r.success = false ∧ r.errors.length = 1) ∧
    (∃ r, pollVoteJson c8w (JBody.dict [("choice", JChoice.jstr "X")]) =
      some (r, c8w) ∧ r.success = false ∧ r.errors.length = 1) ∧
    pollVoteJson c8w JBody.notDict = none ∧
    pollVoteJson c8w (JBody.dict [("choice", JChoice.jobj)]) = none :=
  ⟨(C8_poll_vote_malformed c8w []).1 (by decide),
   (C8_poll_vote_malformed c8w [("choice", JChoice.jstr "X")]).2.1 "X"
     (by decide) (by decide),
   (C8_poll_vote_malformed c8w []).2.2.1 (by decide),
   (C8_poll_vote_malformed c8w [("choice", JChoice.jobj)]).2.2.2 (by decide)
     (Or.inr (by decide))⟩

/-- XBlock fields of `SurveyBlock` touched by the handlers under scrutiny. -/
structure SurveyState where
  questions : List (String × PollAnswer)
  answers : List (String × String)
  tally : Dict (Dict Int)
  choices : Option (Dict String)
  submissions_count : Int
  max_submissions : Int
  private_results : Bool
  feedback : String
  block_name : String
deriving DecidableEq

/-- One element of a studio-submitted `answers`/`questions` JSON array:
either not a JSON object, or an object whose four string fields are read
through `item.get(field, '')` as `gather_items` does. -/
inductive JItem where
  | notDict
  | fields (key img imgAlt label : String)
deriving DecidableEq

/-- `data['max_submissions']` as seen by `get_max_submissions`: absent
(`KeyError`), present but rejected by `int()` (`ValueError`), or an
integer. -/
inductive MaxField where
  | missing
  | notInt
  | intVal (n : Int)
deriving DecidableEq

/-- The `{'success': ..., 'errors': [...]}` accumulator of `studio_submit`. -/
structure SubmitResult where
  success : Bool
  errors : List String
deriving DecidableEq

/-- The `result['success'] = False; result['errors'].append(msg)` pair that
the source emits at every validation-failure site. -/
def addError (r : SubmitResult) (msg : String) : SubmitResult :=
  { success := false, errors := r.errors ++ [msg] }

/-- `PollBase.get_max_submissions` (message text abbreviated). -/
def get_max_submissions (f : MaxField) (result : SubmitResult)
    (private_results : Bool) : Int × SubmitResult :=
  let (max_submissions, result) :=
    match f with
    | .intVal n => (n, result)
    | _ => (1, addError result "Maximum Submissions missing or not an integer.")
  let result :=
    if max_submissions ≠ 1 ∧ private_results = false then
      addError result "Private results may not be False when Maximum Submissions is not 1."
    else result
  (max_submissions, result)

/-- Per-item validation of `PollBase.gather_items` with `image=True` (the
instantiation used for poll answers and survey questions): a missing key,
a missing label-and-image, and a missing image alt text (when mandatory)
each add an error; the item is appended regardless. -/
def gatherStepImg (imgAltMandatory : Bool) (noun : String)
    (acc : List (String × PollAnswer) × SubmitResult) (item : JItem) :
    List (String × PollAnswer) × SubmitResult :=
  match item with
  | .notDict => (acc.1, addError acc.2 (noun ++ " not a javascript object!"))
  | .fields k img imgAlt label =>
    let key := k.trim
    let r := acc.2
    let r := if key = "" then addError r (noun ++ " contains no key.") else r
    let image_link := img.trim
    let image_alt := imgAlt.trim
    let lbl := label.trim
    let r := if lbl = "" ∧ image_link = "" then
        addError r (noun ++ " has no text or img.")
      else r
    let r := if image_link ≠ "" ∧ image_alt = "" ∧ imgAltMandatory then
        addError r "All images must have an alternative text describing the image."
      else r
    (acc.1 ++ [(key, { label := lbl, img := image_link, imgAlt := image_alt })], r)

/-- Per-item validation of `PollBase.gather_items` with `image=False` (the
survey answers instantiation): every label-less item is an error, and the
item is stored as a `[key, label]` pair. -/
def gatherStepPlain (imgAltMandatory : Bool) (noun : String)
    (acc : List (String × String) × SubmitResult) (item : JItem) :
    List (String × String) × SubmitResult :=
  match item with
  | .notDict => (acc.1, addError acc.2 (noun ++ " not a javascript object!"))
  | .fields k img imgAlt label =>
    let key := k.trim
    let r := acc.2
    let r := if key = "" then addError r (noun ++ " contains no key.") else r
    let image_link := img.trim
    let image_alt := imgAlt.trim
    let lbl := label.trim
    let r := if lbl = "" then
        addError r (noun ++ " was added with no label. All of them must have labels.")
      else r
    let r := if image_link ≠ "" ∧ image_alt = "" ∧ imgAltMandatory then
        addError r "All images must have an alternative text describing the image."
      else r
    (acc.1 ++ [(key, lbl)], r)

/-- `PollBase.gather_items`, `image=True`.  `src = none` models both a
missing field and a non-array value, which take the same error branch. -/
def gather_items_img (imgAltMandatory : Bool) (src : Option (List JItem))
    (result : SubmitResult) (noun nounLower field : String) :
    List (String × PollAnswer) × SubmitResult :=
  let (source_items, result) :=
    match src with
    | none => (([] : List JItem),
        addError result ("'" ++ field ++ "' is not present, or not a JSON array."))
    | some xs => (xs, result)
  let (items, result) :=
    source_items.foldl (gatherStepImg imgAltMandatory noun) ([], result)
  let result :=
    if items.isEmpty then
      addError result ("You must include at least one " ++ nounLower ++ ".")
    else result
  (items, result)

/-- `PollBase.gather_items`, `image=False`. -/
def gather_items_plain (imgAltMandatory : Bool) (src : Option (List JItem))
    (result : SubmitResult) (noun nounLower field : String) :
    List (String × String) × SubmitResult :=
  let (source_items, result) :=
    match src with
    | none => (([] : List JItem),
        addError result ("'" ++ field ++ "' is not present, or not a JSON array."))
    | some xs => (xs, result)
  let (items, result) :=
    source_items.foldl (gatherStepPlain imgAltMandatory noun) ([], result)
  let result :=
    if items.isEmpty then
      addError result ("You must include at least one " ++ nounLower ++ ".")
    else result
  (items, result)

/-- Studio AJAX payload for `PollBlock.studio_submit`: the string fields are
the `data.get(key, '')` values, `private_results` is `bool(data.get(...))`,
and `answers = none` models a missing or non-array field. -/
structure PollStudioData where
  question : String
  feedback : String
  display_name : String
  private_results : Bool
  max_submissions : MaxField
  answers : Option (List JItem)
deriving DecidableEq

/-- `PollBlock.studio_submit`: validate, and only on overall success assign
the settings fields. -/
def pollStudioSubmit (imgAltMandatory : Bool) (s : PollState)
    (d : PollStudioData) : SubmitResult × PollState :=
  let result : SubmitResult := { success := true, errors := [] }
  let question := d.question.trim
  let feedback := d.feedback.trim
  let private_results := d.private_results
  let (max_submissions, result) :=
    get_max_submissions d.max_submissions result private_results
  let display_name := d.display_name.trim
  let result :=
    if question = "" then addError result "You must specify a question." else result
  let (answers, result) :=
    gather_items_img imgAltMandatory d.answers result "Answer" "answer" "answers"
  if result.success = false then (result, s)
  else (result,
    { s with
        answers := answers
        question := question
        feedback := feedback
        private_results := private_results
        display_name := display_name
        max_submissions := max_submissions })

/-- Studio AJAX payload for `SurveyBlock.studio_submit`. -/
structure SurveyStudioData where
  feedback : String
  display_name : String
  private_results : Bool
  max_submissions : MaxField
  answers : Option (List JItem)
  questions : Option (List JItem)
deriving DecidableEq

/-- `SurveyBlock.studio_submit`: validate answers (no images) and questions
(with images), and only on overall success assign the settings fields. -/
def surveyStudioSubmit (imgAltMandatory : Bool) (s : SurveyState)
    (d : SurveyStudioData) : SubmitResult × SurveyState :=
  let result : SubmitResult := { success := true, errors := [] }
  let feedback := d.feedback.trim
  let block_name := d.display_name.trim
  let private_results := d.private_results
  let (max_submissions, result) :=
    get_max_submissions d.max_submissions result private_results
  let (answers, result) :=
    gather_items_plain imgAltMandatory d.answers result "Answer" "answer" "answers"
  let (questions, result) :=
    gather_items_img imgAltMandatory d.questions result "Question" "question" "questions"
  if result.success = false then (result, s)
  else (result,
    { s with
        answers := answers
        questions := questions
        feedback := feedback
        private_results := private_results
        max_submissions := max_submissions
        block_name := block_name })

/-- The return-value invariant of `studio_submit`: success is true exactly
when no error message has been recorded. -/
def resInv (r : SubmitResult) : Prop := r.success = true ↔ r.errors = []

theorem resInv_addError (r : SubmitResult) (msg : String) :
    resInv (addError r msg) := by
  simp [resInv, addError]

theorem resInv_ite (c : Prop) [Decidable c] (r : SubmitResult) (msg : String)
    (h : resInv r) : resInv (if c then addError r msg else r) := by
  split
  · exact resInv_addError r msg
  · exact h

theorem resInv_gatherStepImg (m : Bool) (noun : String)
    (acc : List (String × PollAnswer) × SubmitResult) (item : JItem)
    (h : resInv acc.2) : resInv (gatherStepImg m noun acc item).2 := by
  cases item with
  | notDict => exact resInv_addError _ _
  | fields k img imgAlt label =>
    exact resInv_ite _ _ _ (resInv_ite _ _ _ (resInv_ite _ _ _ h))

theorem resInv_gatherStepPlain (m : Bool) (noun : String)
    (acc : List (String × String) × SubmitResult) (item : JItem)
    (h : resInv acc.2) : resInv (gatherStepPlain m noun acc item).2 := by
  cases item with
  | notDict => exact resInv_addError _ _
  | fields k img imgAlt label =>
    exact resInv_ite _ _ _ (resInv_ite _ _ _ (resInv_ite _ _ _ h))

theorem resInv_foldl_img (m : Bool) (noun : String) (items : List JItem) :
    ∀ acc, resInv acc.2 →
      resInv ((items.foldl (gatherStepImg m noun) acc).2) := by
  induction items with
  | nil => intro acc h; exact h
  | cons it rest ih =>
    intro acc h
    simp only [List.foldl_cons]
    exact ih _ (resInv_gatherStepImg m noun acc it h)

theorem resInv_foldl_plain (m : Bool) (noun : String) (items : List JItem) :
    ∀ acc, resInv acc.2 →
      resInv ((items.foldl (gatherStepPlain m noun) acc).2) := by
  induction items with
  | nil => intro acc h; exact h
  | cons it rest ih =>
    intro acc h
    simp only [List.foldl_cons]
    exact ih _ (resInv_gatherStepPlain m noun acc it h)

theorem resInv_gather_items_img (m : Bool) (src : Option (List JItem))
    (r : SubmitResult) (noun nlow field : String) (h : resInv r) :
    resInv (gather_items_img m src r noun nlow field).2 := by
  cases src with
  | none =>
    exact resInv_ite _ _ _
      (resInv_foldl_img m noun []
        ([], addError r ("'" ++ field ++ "' is not present, or not a JSON array."))
        (resInv_addError r _))
  | some xs =>
    exact resInv_ite _ _ _ (resInv_foldl_img m noun xs ([], r) h)

theorem resInv_gather_items_plain (m : Bool) (src : Option (List JItem))
    (r : SubmitResult) (noun nlow field : String) (h : resInv r) :
    resInv (gather_items_plain m src r noun nlow field).2 := by
  cases src with
  | none =>
    exact resInv_ite _ _ _
      (resInv_foldl_plain m noun []
        ([], addError r ("'" ++ field ++ "' is not present, or not a JSON array."))
        (resInv_addError r _))
  | some xs =>
    exact resInv_ite _ _ _ (resInv_foldl_plain m noun xs ([], r) h)

theorem resInv_get_max_submissions (f : MaxField) (r : SubmitResult) (pr : Bool)
    (h : resInv r) : resInv (get_max_submissions f r pr).2 := by
  cases f with
  | missing => exact resInv_ite _ _ _ (resInv_addError _ _)
  | notInt => exact resInv_ite _ _ _ (resInv_addError _ _)
  | intVal n => exact resInv_ite _ _ _ h

theorem fst_ite_pair {α β : Type} (c : Prop) [inst : Decidable c] (r : α)
    (s t : β) : (if c then (r, s) else (r, t)).1 = r := by
  split <;> rfl

/-- C7: in `studio_submit` of both `PollBlock` and `SurveyBlock`, every
validation failure records an error message together with setting success
to False, so at return `result['success']` is False if and only if
`result['errors']` is non-empty. -/
theorem C7_studio_submit_success_iff_no_errors :
    (∀ (m : Bool) (s : PollState) (d : PollStudioData),
      ((pollStudioSubmit m s d).1.success = true ↔
        (pollStudioSubmit m s d).1.errors = [])) ∧
    (∀ (m : Bool) (s : SurveyState) (d : SurveyStudioData),
      ((surveyStudioSubmit m s d).1.success = true ↔
        (surveyStudioSubmit m s d).1.errors = [])) := by
  have h0 : resInv { success := true, errors := [] } := by simp [resInv]
  constructor
  · intro m s d
    have h1 := resInv_get_max_submissions d.max_submissions _ d.private_results h0
    have h2 := resInv_ite (d.question.trim = "") _ "You must specify a question." h1
    have h3 := resInv_gather_items_img m d.answers _ "Answer" "answer" "answers" h2
    show resInv (pollStudioSubmit m s d).1
    simp only [pollStudioSubmit]
    rw [fst_ite_pair]
    exact h3
  · intro m s d
    have h1 := resInv_get_max_submissions d.max_submissions _ d.private_results h0
    have h2 := resInv_gather_items_plain m d.answers _ "Answer" "answer" "answers" h1
    have h3 := resInv_gather_items_img m d.questions _ "Question" "question" "questions" h2
    show resInv (surveyStudioSubmit m s d).1
    simp only [surveyStudioSubmit]
    rw [fst_ite_pair]
    exact h3

/-- C10: `studio_submit` is atomic in both blocks: whenever it returns with
success False, no settings field has been assigned (the state is returned
unchanged); fields are assigned only after all validation passed. -/
theorem C10_studio_submit_atomic :
    (∀ (m : Bool) (s : PollState) (d : PollStudioData),
      (pollStudioSubmit m s d).1.success = false → (pollStudioSubmit m s d).2 = s) ∧
    (∀ (m : Bool) (s : SurveyState) (d : SurveyStudioData),
      (surveyStudioSubmit m s d).1.success = false → (surveyStudioSubmit m s d).2 = s) := by
  constructor
  · intro m s d h
    simp only [pollStudioSubmit] at h ⊢
    rw [fst_ite_pair] at h
    rw [if_pos h]
  · intro m s d h
    simp only [surveyStudioSubmit] at h ⊢
    rw [fst_ite_pair] at h
    rw [if_pos h]

/-- State and payload for the C10 witness: the submission lacks an answers
array and has an empty question, so validation fails. -/
def c10s : PollState :=
  { question := "orig",
    answers := [("R", { label := "Red", img := "", imgAlt := "" })],
    tally := [("R", 0)], choice := none, submissions_count := 0,
    max_submissions := 1, private_results := false, feedback := "f",
    display_name := "dn" }

def c10d : PollStudioData :=
  { question := "", feedback := "", display_name := "",
    private_results := false, max_submissions := MaxField.intVal 1,
    answers := none }

theorem C10_witness :
    (pollStudioSubmit true c10s c10d).1.success = false ∧
    (pollStudioSubmit true c10s c10d).2 = c10s :=
  ⟨by decide, C10_studio_submit_atomic.1 true c10s c10d (by decide)⟩

theorem nodup_dkeys_dictOf {α : Type} (pairs : List (String × α)) :
    (dkeys (dictOf pairs)).Nodup := by
  have main : ∀ (l : List (String × α)) (d : Dict α),
      (dkeys d).Nodup → (dkeys (l.foldl (fun d p => dinsert d p.1 p.2) d)).Nodup := by
    intro l
    induction l with
    | nil => intro d h; exact h
    | cons p rest ih =>
      intro d h
      exact ih _ (nodup_dkeys_dinsert d p.1 p.2 h)
  exact main pairs [] (by simp [dkeys])

/-- The per-question sub-dict reconciliation inside `SurveyBlock.clean_tally`:
`new_answers = dict(default_answers); new_answers.update(sub);` then delete
every key of `sub` that is not a default answer key. -/
def surveyCleanSub (default_answers : Dict Int) (sub : Dict Int) : Dict Int :=
  let new_answers := sub.foldl (fun na p => dinsert na p.1 p.2) default_answers
  (dkeys sub).foldl
    (fun na existing_key =>
      if dmember default_answers existing_key then na else derase na existing_key)
    new_answers

/-- One iteration of the first loop of `SurveyBlock.clean_tally`. -/
def surveyCleanStep (default_answers : Dict Int) (t : Dict (Dict Int))
    (key : String) : Dict (Dict Int) :=
  if dmember t key = false then dinsert t key default_answers
  else dinsert t key (surveyCleanSub default_answers (dgetD t key []))

/-- `SurveyBlock.clean_tally`: reconcile each configured question's sub-dict
against the configured answers, then drop tally keys of removed questions. -/
def surveyCleanTally (questions : Dict PollAnswer) (answers : Dict String)
    (tally : Dict (Dict Int)) : Dict (Dict Int) :=
  let default_answers : Dict Int := (dkeys answers).map (fun a => (a, 0))
  let t1 := (dkeys questions).foldl (surveyCleanStep default_answers) tally
  t1.filter (fun p => dmember questions p.1)

/-- Two-level dict lookup, `None` when either level misses. -/
def dlookup2 (t : Dict (Dict Int)) (q a : String) : Option Int :=
  match dlookup t q with
  | some sub => dlookup sub a
  | none => none

theorem dlookup_map_zero (ks : List String) (a : String) :
    dlookup (ks.map (fun k => (k, (0 : Int)))) a =
      if a ∈ ks then some 0 else none := by
  induction ks with
  | nil => simp [dlookup]
  | cons k rest ih =>
    by_cases h : k = a
    · subst h
      simp [dlookup]
    · have hne : ¬ a = k := fun he => h he.symm
      simp [dlookup, h, ih, hne]

theorem dlookup_derase {α : Type} (d : Dict α) (k a : String) :
    dlookup (derase d k) a = if a = k then none else dlookup d a := by
  induction d with
  | nil => simp [derase, dlookup]
  | cons p rest ih =>
    obtain ⟨k₀, v₀⟩ := p
    by_cases h : k₀ = k
    · have hstep : derase ((k₀, v₀) :: rest) k = derase rest k := by
        simp [derase, List.filter_cons, h]
      rw [hstep, ih]
      by_cases h' : a = k
      · simp [h']
      · rw [if_neg h', if_neg h']
        subst h
        have hne : ¬ k₀ = a := fun he => h' he.symm
        simp [dlookup, hne]
    · have hstep : derase ((k₀, v₀) :: rest) k = (k₀, v₀) :: derase rest k := by
        simp [derase, List.filter_cons, h]
      rw [hstep]
      show (if k₀ = a then some v₀ else dlookup (derase rest k) a) = _
      by_cases h' : k₀ = a
      · subst h'
        have hne : ¬ k₀ = k := h
        rw [if_pos rfl, if_neg (fun he : k₀ = k => hne he)]
        simp [dlookup]
      · rw [if_neg h', ih]
        by_cases h2 : a = k
        · simp [h2]
        · rw [if_neg h2, if_neg h2]
          simp [dlookup, h']

theorem dlookup_update_foldl {α : Type} (sub : Dict α) (defaults : Dict α)
    (a : String) (hnd : (dkeys sub).Nodup) :
    dlookup (sub.foldl (fun na p => dinsert na p.1 p.2) defaults) a =
      match dlookup sub a with
      | some v => some v
      | none => dlookup defaults a := by
  induction sub generalizing defaults with
  | nil => simp [dlookup]
  | cons p rest ih =>
    obtain ⟨k₀, v₀⟩ := p
    have hcons : dkeys ((k₀, v₀) :: rest) = k₀ :: dkeys rest := rfl
    rw [hcons, List.nodup_cons] at hnd
    simp only [List.foldl_cons]
    rw [ih _ hnd.2]
    by_cases h : k₀ = a
    · subst h
      have hnone : dlookup rest k₀ = none := (dlookup_eq_none_iff rest k₀).mpr hnd.1
      simp [dlookup, hnone, dlookup_dinsert]
    · have hne : ¬ a = k₀ := fun he => h he.symm
      simp [dlookup, h, dlookup_dinsert, hne]

theorem dlookup_erase_foldl (ks : List String) (defaults : Dict Int)
    (na0 : Dict Int) (a : String) :
    dlookup (ks.foldl
      (fun na ek => if dmember defaults ek then na else derase na ek) na0) a =
      if a ∈ ks ∧ dmember defaults a = false then none else dlookup na0 a := by
  induction ks generalizing na0 with
  | nil => simp
  | cons k₀ rest ih =>
    simp only [List.foldl_cons]
    rw [ih]
    by_cases hm : dmember defaults k₀
    · rw [if_pos hm]
      by_cases hr : a ∈ rest ∧ dmember defaults a = false
      · simp [hr]
      · rw [if_neg hr, if_neg ?_]
        intro hc
        rcases hc with ⟨hc1, hc2⟩
        rcases List.mem_cons.mp hc1 with he | he
        · subst he
          rw [hm] at hc2
          cases hc2
        · exact hr ⟨he, hc2⟩
    · rw [if_neg hm]
      by_cases hr : a ∈ rest ∧ dmember defaults a = false
      · simp [hr]
      · rw [if_neg hr, dlookup_derase]
        by_cases hak : a = k₀
        · subst hak
          have hdm : dmember defaults a = false := by
            cases hdm : dmember defaults a with
            | false => rfl
            | true => exact absurd hdm hm
          simp [List.mem_cons, hdm]
        · rw [if_neg hak, if_neg ?_]
          intro hc
          rcases hc with ⟨hc1, hc2⟩
          rcases List.mem_cons.mp hc1 with he | he
          · exact hak he
          · exact hr ⟨he, hc2⟩

theorem surveyCleanSub_lookup (akeys : List String) (sub : Dict Int) (a : String)
    (hnd : (dkeys sub).Nodup) :
    dlookup (surveyCleanSub (akeys.map (fun k => (k, 0))) sub) a =
      if a ∈ akeys then some (dgetD sub a 0) else none := by
  unfold surveyCleanSub
  rw [dlookup_erase_foldl]
  have hmem : dmember (akeys.map (fun k => (k, (0 : Int)))) a = true ↔ a ∈ akeys := by
    unfold dmember
    rw [dlookup_map_zero]
    by_cases h : a ∈ akeys <;> simp [h]
  by_cases ha : a ∈ akeys
  · have hm : dmember (akeys.map (fun k => (k, (0 : Int)))) a = true := hmem.mpr ha
    have hcneg : ¬ (a ∈ dkeys sub ∧
        dmember (akeys.map (fun k => (k, (0 : Int)))) a = false) := by
      intro hc
      rw [hm] at hc
      cases hc.2
    rw [if_neg hcneg, dlookup_update_foldl _ _ _ hnd, if_pos ha]
    cases hs : dlookup sub a with
    | some v => simp [dgetD, hs]
    | none => simp [dgetD, hs, dlookup_map_zero, ha]
  · have hm : dmember (akeys.map (fun k => (k, (0 : Int)))) a = false := by
      cases hc : dmember (akeys.map (fun k => (k, (0 : Int)))) a with
      | false => rfl
      | true => exact absurd (hmem.mp hc) ha
    rw [if_neg ha]
    by_cases hsub : a ∈ dkeys sub
    · rw [if_pos ⟨hsub, hm⟩]
    · rw [if_neg (fun hc => hsub hc.1), dlookup_update_foldl _ _ _ hnd]
      have hnone : dlookup sub a = none := (dlookup_eq_none_iff sub a).mpr hsub
      simp [hnone, dlookup_map_zero, ha]

theorem surveyCleanStep_lookup (D : Dict Int) (t : Dict (Dict Int)) (k q : String) :
    dlookup (surveyCleanStep D t k) q =
      if k = q then
        some (if dmember t k = false then D else surveyCleanSub D (dgetD t k []))
      else dlookup t q := by
  unfold surveyCleanStep
  by_cases hm : dmember t k = false
  · rw [if_pos hm, dlookup_dinsert]
    by_cases h : k = q
    · subst h
      simp [hm]
    · simp [h]
  · have hm' : dmember t k = true := by
      cases hc : dmember t k with
      | false => exact absurd hc hm
      | true => rfl
    rw [if_neg hm, dlookup_dinsert]
    by_cases h : k = q
    · subst h
      simp [hm']
    · simp [h]

theorem surveyClean_foldl_lookup (D : Dict Int) (ks : List String)
    (hks : ks.Nodup) (t : Dict (Dict Int)) (q : String) :
    dlookup (ks.foldl (surveyCleanStep D) t) q =
      if q ∈ ks then
        some (if dmember t q = false then D else surveyCleanSub D (dgetD t q []))
      else dlookup t q := by
  induction ks generalizing t with
  | nil => simp
  | cons k₀ rest ih =>
    rw [List.nodup_cons] at hks
    simp only [List.foldl_cons]
    rw [ih hks.2]
    by_cases hq : q = k₀
    · subst hq
      rw [if_neg hks.1, surveyCleanStep_lookup, if_pos rfl,
        if_pos (List.mem_cons_self q rest)]
    · have hne : ¬ q = k₀ := hq
      have hne' : ¬ k₀ = q := fun he => hq he.symm
      have hmem_pres : dmember (surveyCleanStep D t k₀) q = dmember t q := by
        unfold dmember
        rw [surveyCleanStep_lookup, if_neg hne']
      have hget_pres : dgetD (surveyCleanStep D t k₀) q [] = dgetD t q [] := by
        unfold dgetD
        rw [surveyCleanStep_lookup, if_neg hne']
      by_cases hr : q ∈ rest
      · rw [if_pos hr, if_pos (List.mem_cons_of_mem k₀ hr), hmem_pres, hget_pres]
      · rw [if_neg hr, surveyCleanStep_lookup, if_neg hne', if_neg ?_]
        intro hc
        rcases List.mem_cons.mp hc with he | he
        · exact hq he
        · exact hr he

theorem surveyCleanTally_lookup (Q : Dict PollAnswer) (A : Dict String)
    (t : Dict (Dict Int)) (q : String) (hQ : (dkeys Q).Nodup) :
    dlookup (surveyCleanTally Q A t) q =
      if dmember Q q then
        some (if dmember t q = false then (dkeys A).map (fun a => (a, 0))
          else surveyCleanSub ((dkeys A).map (fun a => (a, 0))) (dgetD t q []))
      else none := by
  unfold surveyCleanTally
  rw [dlookup_filterKeys, surveyClean_foldl_lookup _ _ hQ]
  by_cases hm : dmember Q q
  · rw [if_pos hm, if_pos hm, if_pos ((dmember_iff_mem_dkeys Q q).mp hm)]
  · rw [if_neg hm, if_neg hm]

/-- C3: after `clean_tally` the stored tally's key set equals exactly the
configured key set: for `PollBlock` every configured answer key maps to its
previous count (0 when newly introduced) and no other key survives; for
`SurveyBlock` the same holds per configured question, each per-question
sub-map's key set being exactly the configured answer keys, previous counts
kept and newly introduced keys at 0. -/
theorem C3_clean_tally_spec :
    (∀ (answers : List (String × PollAnswer)) (t : Dict Int) (k : String),
      (k ∈ dkeys (pollCleanTally (dictOf answers) t) ↔ k ∈ answers.map Prod.fst) ∧
      (k ∈ answers.map Prod.fst →
        dlookup (pollCleanTally (dictOf answers) t) k = some (dgetD t k 0))) ∧
    (∀ (questions : List (String × PollAnswer)) (answers : List (String × String))
      (t : Dict (Dict Int)),
      (∀ q sub, dlookup t q = some sub → (dkeys sub).Nodup) →
      ∀ q : String,
        ((dlookup (surveyCleanTally (dictOf questions) (dictOf answers) t) q).isSome
            = true ↔ q ∈ questions.map Prod.fst) ∧
        (q ∈ questions.map Prod.fst → ∀ a : String,
          dlookup2 (surveyCleanTally (dictOf questions) (dictOf answers) t) q a =
            if a ∈ answers.map Prod.fst then some (dgetD2 t q a) else none)) := by
  constructor
  · intro answers t k
    constructor
    · rw [dkeys_pollCleanTally_mem, dmember_iff_mem_dkeys, mem_dkeys_dictOf]
    · intro hk
      have hA : dmember (dictOf answers) k = true :=
        (dmember_iff_mem_dkeys _ _).mpr ((mem_dkeys_dictOf answers k).mpr hk)
      rw [pollCleanTally_lookup, if_pos hA]
  · intro questions answers t hsub q
    have hQnd : (dkeys (dictOf questions)).Nodup := nodup_dkeys_dictOf questions
    have hql := surveyCleanTally_lookup (dictOf questions) (dictOf answers) t q hQnd
    have hiffq : dmember (dictOf questions) q = true ↔ q ∈ questions.map Prod.fst := by
      rw [dmember_iff_mem_dkeys, mem_dkeys_dictOf]
    constructor
    · rw [hql]
      by_cases hm : dmember (dictOf questions) q
      · rw [if_pos hm]
        exact ⟨fun _ => hiffq.mp hm, fun _ => rfl⟩
      · rw [if_neg hm]
        constructor
        · intro hfalse
          simp at hfalse
        · intro hmem
          exact absurd (hiffq.mpr hmem) hm
    · intro hq a
      have hm : dmember (dictOf questions) q = true := hiffq.mpr hq
      have hiffa : a ∈ dkeys (dictOf answers) ↔ a ∈ answers.map Prod.fst :=
        mem_dkeys_dictOf answers a
      unfold dlookup2
      rw [hql, if_pos hm]
      by_cases ht : dmember t q = false
      · rw [if_pos ht]
        show dlookup ((dkeys (dictOf answers)).map (fun a => (a, 0))) a = _
        rw [dlookup_map_zero]
        have htq : dlookup t q = none := by
          cases hl : dlookup t q with
          | none => rfl
          | some sub =>
            unfold dmember at ht
            rw [hl] at ht
            cases ht
        have hzero : dgetD2 t q a = 0 := by
          unfold dgetD2 dgetD
          rw [htq]
          rfl
        by_cases haa : a ∈ answers.map Prod.fst
        · rw [if_pos (hiffa.mpr haa), if_pos haa, hzero]
        · rw [if_neg (fun hc => haa (hiffa.mp hc)), if_neg haa]
      · rw [if_neg ht]
        have hex : ∃ sub, dlookup t q = some sub := by
          cases hl : dlookup t q with
          | none =>
            unfold dmember at ht
            rw [hl] at ht
            simp at ht
          | some sub => exact ⟨sub, rfl⟩
        obtain ⟨sub, hsome⟩ := hex
        have hnd' : (dkeys (dgetD t q [])).Nodup := by
          unfold dgetD
          rw [hsome]
          exact hsub q sub hsome
        show dlookup (surveyCleanSub ((dkeys (dictOf answers)).map (fun a => (a, 0)))
          (dgetD t q [])) a = _
        rw [surveyCleanSub_lookup _ _ _ hnd']
        by_cases haa : a ∈ answers.map Prod.fst
        · rw [if_pos (hiffa.mpr haa), if_pos haa]
          rfl
        · rw [if_neg (fun hc => haa (hiffa.mp hc)), if_neg haa]

def c3pa : PollAnswer := { label := "Q1", img := "", imgAlt := "" }

theorem C3_witness :
    dlookup (pollCleanTally (dictOf [("B", c3pa)]) [("Z", 3)]) "B" = some 0 ∧
    dlookup2 (surveyCleanTally (dictOf [("q1", c3pa)]) (dictOf [("Y", "Yes")])
      [("q1", [("Y", 2), ("Z", 5)])]) "q1" "Y" = some 2 := by
  constructor
  · have h := (C3_clean_tally_spec.1 [("B", c3pa)] [("Z", 3)] "B").2 (by simp)
    rw [h]
    decide
  · have hsub : ∀ q sub, dlookup [("q1", [("Y", (2 : Int)), ("Z", 5)])] q = some sub →
        (dkeys sub).Nodup := by
      intro q sub h
      unfold dlookup at h
      split at h
      · injection h with h
        subst h
        decide
      · cases h
    have h := (C3_clean_tally_spec.2 [("q1", c3pa)] [("Y", "Yes")]
        [("q1", [("Y", 2), ("Z", 5)])] hsub "q1").2 (by simp) "Y"
    rw [h]
    decide

/-- `SurveyBlock.remove_vote`: for each recorded pair whose question and
answer both still exist, decrement `tally[question][answer]`; then clear the
stored choices.  (Only called when `self.choices` is not `None`.)  The
source's `self.tally[key][value] -= 1` raises an uncaught `KeyError` when a
still-configured recorded pair has no tally cell, whereas `dmodify` has no
side condition; every theorem about this function therefore carries a
presence hypothesis confining it to the states where the source does not
raise. -/
def surveyRemoveVote (s : SurveyState) : SurveyState :=
  let questions := dictOf s.questions
  let answers := dictOf s.answers
  let t := (s.choices.getD []).foldl
    (fun t p =>
      if dmember questions p.1 then
        if dmember answers p.2 then
          dmodify t p.1 (fun sub => dmodify sub p.2 (fun n => n - 1))
        else t
      else t)
    s.tally
  { s with tally := t, choices := none }

/-- Truthiness of the `choices` dict (`None` and `{}` are falsy). -/
def choicesTruthy (c : Option (Dict String)) : Bool :=
  match c with
  | none => false
  | some m => !m.isEmpty

/-- `SurveyBlock.get_choices`: return the stored choices when their question
key multiset equals the configured one (Python compares sorted key lists)
and every chosen value is a configured answer key; otherwise remove the
stale vote and return `None`. -/
def surveyGetChoices (s : SurveyState) : Option (Dict String) × SurveyState :=
  let questions := dictOf s.questions
  let answers := dictOf s.answers
  match s.choices with
  | none => (none, s)
  | some m =>
    if ¬ (Multiset.ofList (dkeys questions) = Multiset.ofList (dkeys m)) then
      (none, surveyRemoveVote s)
    else if m.any (fun p => !(dmember answers p.2)) then
      (none, surveyRemoveVote s)
    else (some m, s)

theorem dlookup2_dmodify_other (t : Dict (Dict Int)) (k q a : String)
    (f : Dict Int → Dict Int) (h : ¬ k = q) :
    dlookup2 (dmodify t k f) q a = dlookup2 t q a := by
  unfold dlookup2
  rw [dlookup_dmodify, if_neg h]

theorem removeFold_lookup2 (Q : Dict PollAnswer) (A : Dict String)
    (m : Dict String) (t : Dict (Dict Int)) (q a : String)
    (hnd : (dkeys m).Nodup) :
    dlookup2 (m.foldl
      (fun t p =>
        if dmember Q p.1 then
          if dmember A p.2 then
            dmodify t p.1 (fun sub => dmodify sub p.2 (fun n => n - 1))
          else t
        else t)
      t) q a =
    if dlookup m q = some a ∧ dmember Q q = true ∧ dmember A a = true then
      (dlookup2 t q a).map (fun n => n - 1)
    else dlookup2 t q a := by
  induction m generalizing t with
  | nil => simp [dlookup]
  | cons p rest ih =>
    obtain ⟨q₀, v₀⟩ := p
    have hcons : dkeys ((q₀, v₀) :: rest) = q₀ :: dkeys rest := rfl
    rw [hcons, List.nodup_cons] at hnd
    simp only [List.foldl_cons]
    rw [ih _ hnd.2]
    by_cases hq : q₀ = q
    · subst hq
      have hrest : dlookup rest q₀ = none := (dlookup_eq_none_iff rest q₀).mpr hnd.1
      have hhead : dlookup ((q₀, v₀) :: rest) q₀ = some v₀ := by
        simp [dlookup]
      rw [if_neg (by simp [hrest])]
      by_cases hQ : dmember Q q₀
      · by_cases hA : dmember A v₀
        · rw [if_pos hQ, if_pos hA]
          unfold dlookup2
          rw [dlookup_dmodify, if_pos rfl]
          by_cases hva : v₀ = a
          · subst hva
            rw [if_pos ⟨hhead, hQ, hA⟩]
            cases hs : dlookup t q₀ with
            | none => simp
            | some sub =>
              show dlookup (dmodify sub v₀ (fun n => n - 1)) v₀ = _
              rw [dlookup_dmodify, if_pos rfl]
          · rw [if_neg ?_]
            · cases hs : dlookup t q₀ with
              | none => simp
              | some sub =>
                show dlookup (dmodify sub v₀ (fun n => n - 1)) a = _
                rw [dlookup_dmodify, if_neg hva]
            · intro hc
              rw [hhead] at hc
              injection hc.1 with he
              exact hva he
        · rw [if_pos hQ, if_neg hA, if_neg ?_]
          intro hc
          rw [hhead] at hc
          injection hc.1 with he
          subst he
          exact hA hc.2.2
      · rw [if_neg hQ, if_neg ?_]
        intro hc
        exact hQ hc.2.1
    · have hlk : dlookup ((q₀, v₀) :: rest) q = dlookup rest q := by
        simp [dlookup, hq]
      rw [hlk]
      by_cases hQ : dmember Q q₀
      · by_cases hA : dmember A v₀
        · rw [if_pos hQ, if_pos hA, dlookup2_dmodify_other t q₀ q a _ hq]
        · rw [if_pos hQ, if_neg hA]
      · rw [if_neg hQ]

/-- C4: for every stored per-user choices map, `get_choices` returns it iff
its question-key multiset (Python compares sorted key lists) equals the
configured one and every chosen value is a configured answer key; in the
valid case nothing is mutated, otherwise it returns `None` after
`remove_vote`, which clears the stored choices and decrements `tally[q][v]`
by 1 for each recorded pair whose question and answer both still exist.
The `hpres` hypothesis requires a tally cell for every still-configured
recorded pair: on states violating it the source raises `KeyError` at
`self.tally[key][value] -= 1` instead of returning. -/
theorem C4_survey_get_choices_spec (s : SurveyState) (m : Dict String)
    (hm : s.choices = some m) (hnd : (dkeys m).Nodup)
    (hpres : ∀ p ∈ m, dmember (dictOf s.questions) p.1 = true →
      dmember (dictOf s.answers) p.2 = true →
      (dlookup2 s.tally p.1 p.2).isSome = true) :
    ((surveyGetChoices s).1 = some m ↔
      (Multiset.ofList (dkeys (dictOf s.questions)) = Multiset.ofList (dkeys m) ∧
        ∀ p ∈ m, dmember (dictOf s.answers) p.2 = true)) ∧
    ((Multiset.ofList (dkeys (dictOf s.questions)) = Multiset.ofList (dkeys m) ∧
        ∀ p ∈ m, dmember (dictOf s.answers) p.2 = true) →
      surveyGetChoices s = (some m, s)) ∧
    (¬ (Multiset.ofList (dkeys (dictOf s.questions)) = Multiset.ofList (dkeys m) ∧
        ∀ p ∈ m, dmember (dictOf s.answers) p.2 = true) →
      (surveyGetChoices s).1 = none ∧
      (surveyGetChoices s).2.choices = none ∧
      (∀ q a, dlookup2 (surveyGetChoices s).2.tally q a =
        if dlookup m q = some a ∧ dmember (dictOf s.questions) q = true ∧
            dmember (dictOf s.answers) a = true then
          (dlookup2 s.tally q a).map (fun n => n - 1)
        else dlookup2 s.tally q a)) := by
  have hany_false : (m.any (fun p => !(dmember (dictOf s.answers) p.2))) = false ↔
      (∀ p ∈ m, dmember (dictOf s.answers) p.2 = true) := by
    constructor
    · intro h p hp
      by_cases hd : dmember (dictOf s.answers) p.2 = true
      · exact hd
      · exfalso
        have : m.any (fun p => !(dmember (dictOf s.answers) p.2)) = true :=
          List.any_eq_true.mpr ⟨p, hp, by simp [hd]⟩
        rw [h] at this
        cases this
    · intro h
      by_cases ha : m.any (fun p => !(dmember (dictOf s.answers) p.2)) = true
      · obtain ⟨p, hp, hb⟩ := List.any_eq_true.mp ha
        rw [h p hp] at hb
        cases hb
      · cases hc : m.any (fun p => !(dmember (dictOf s.answers) p.2)) with
        | false => rfl
        | true => exact absurd hc ha
  have hrm_tally : ∀ q a, dlookup2 (surveyRemoveVote s).tally q a =
      if dlookup m q = some a ∧ dmember (dictOf s.questions) q = true ∧
          dmember (dictOf s.answers) a = true then
        (dlookup2 s.tally q a).map (fun n => n - 1)
      else dlookup2 s.tally q a := by
    intro q a
    have hexp : (surveyRemoveVote s).tally =
        (s.choices.getD []).foldl
          (fun t p =>
            if dmember (dictOf s.questions) p.1 then
              if dmember (dictOf s.answers) p.2 then
                dmodify t p.1 (fun sub => dmodify sub p.2 (fun n => n - 1))
              else t
            else t)
          s.tally := rfl
    rw [hexp, hm]
    exact removeFold_lookup2 (dictOf s.questions) (dictOf s.answers) m s.tally q a hnd
  by_cases hK : Multiset.ofList (dkeys (dictOf s.questions)) = Multiset.ofList (dkeys m)
  · by_cases hV : ∀ p ∈ m, dmember (dictOf s.answers) p.2 = true
    · have hres : surveyGetChoices s = (some m, s) := by
        simp only [surveyGetChoices, hm]
        rw [if_neg (not_not_intro hK), if_neg ?_]
        intro hc
        rw [hany_false.mpr hV] at hc
        cases hc
      refine ⟨?_, fun _ => hres, ?_⟩
      · rw [hres]
        exact ⟨fun _ => ⟨hK, hV⟩, fun _ => rfl⟩
      · intro hc
        exact absurd ⟨hK, hV⟩ hc
    · have hres : surveyGetChoices s = (none, surveyRemoveVote s) := by
        simp only [surveyGetChoices, hm]
        rw [if_neg (not_not_intro hK), if_pos ?_]
        cases hc : m.any (fun p => !(dmember (dictOf s.answers) p.2)) with
        | true => rfl
        | false => exact absurd (hany_false.mp hc) hV
      refine ⟨?_, ?_, ?_⟩
      · rw [hres]
        constructor
        · intro hfalse
          cases hfalse
        · intro hc
          exact absurd hc.2 hV
      · intro hc
        exact absurd hc.2 hV
      · intro _
        rw [hres]
        exact ⟨rfl, rfl, hrm_tally⟩
  · have hres : surveyGetChoices s = (none, surveyRemoveVote s) := by
      simp only [surveyGetChoices, hm]
      rw [if_pos hK]
    refine ⟨?_, ?_, ?_⟩
    · rw [hres]
      constructor
      · intro hfalse
        cases hfalse
      · intro hc
        exact absurd hc.1 hK
    · intro hc
      exact absurd hc.1 hK
    · intro _
      rw [hres]
      exact ⟨rfl, rfl, hrm_tally⟩

def c4pa : PollAnswer := { label := "Enjoying?", img := "", imgAlt := "" }

/-- A survey that gained a question "q2" after the user voted on "q1"
alone, so `get_choices` must remove the vote; the recorded pair
("q1", "Y") is still configured and its tally cell is present. -/
def c4s : SurveyState :=
  { questions := [("q1", c4pa), ("q2", c4pa)], answers := [("Y", "Yes")],
    tally := [("q1", [("Y", 3)]), ("q2", [("Y", 0)])],
    choices := some [("q1", "Y")],
    submissions_count := 1, max_submissions := 1, private_results := true,
    feedback := "", block_name := "" }

theorem C4_witness :
    (surveyGetChoices c4s).1 = none ∧
    (surveyGetChoices c4s).2.choices = none ∧
    dlookup2 (surveyGetChoices c4s).2.tally "q1" "Y" = some 2 := by
  have hpres : ∀ p ∈ [("q1", "Y")], dmember (dictOf c4s.questions) p.1 = true →
      dmember (dictOf c4s.answers) p.2 = true →
      (dlookup2 c4s.tally p.1 p.2).isSome = true := by
    intro p hp h1 h2
    rw [List.mem_singleton] at hp
    subst hp
    decide
  have h := (C4_survey_get_choices_spec c4s [("q1", "Y")] rfl (by decide) hpres).2.2
    (by decide)
  refine ⟨h.1, h.2.1, ?_⟩
  have heq := h.2.2 "q1" "Y"
  rw [heq, if_pos (by decide)]
  decide

/-- `PollBase.markdown_items`, the markdown renderer abstracted as `md`. -/
def markdown_items (md : String → String) (items : List (String × PollAnswer)) :
    List (String × PollAnswer) :=
  items.map (fun p =>
    (p.1, { label := md p.2.label, img := p.2.img, imgAlt := p.2.imgAlt }))

/-- One row of `PollBlock.tally_detail`.  The `percent` field of the source
is computed in binary floating point and is outside this integer model (no
claim mentions it). -/
structure TallyEntry where
  count : Int
  answer : String
  img : String
  imgAlt : String
  key : String
  first : Bool
  choice : Bool
  last : Bool
deriving DecidableEq

/-- `tally[0]['first'] = True` guarded by `if tally:`. -/
def markFirst : List TallyEntry → List TallyEntry
  | [] => []
  | e :: rest => { e with first := true } :: rest

/-- `tally[-1]['last'] = True` guarded by `if tally:`. -/
def markLast : List TallyEntry → List TallyEntry
  | [] => []
  | [e] => [{ e with last := true }]
  | e :: e2 :: rest => e :: markLast (e2 :: rest)

/-- `PollBlock.tally_detail`: build one row per configured answer from the
cleaned tally, mark the user's choice, sort by count descending (stable, as
Python's `sort(reverse=True)`), and mark the first and last rows.  Returns
the rows and total plus the state with the cleaned tally (`clean_tally`
mutates `self.tally`). -/
def pollTallyDetail (md : String → String) (s : PollState) :
    (List TallyEntry × Int) × PollState :=
  let answers := dictOf (markdown_items md s.answers)
  let choice := getChoice s
  let t := pollCleanTally (dictOf s.answers) s.tally
  let entries := answers.map (fun p =>
    ({ count := dgetD t p.1 0, answer := p.2.label, img := p.2.img,
       imgAlt := p.2.imgAlt, key := p.1, first := false, choice := false,
       last := false } : TallyEntry))
  let total := (entries.map (fun e => e.count)).sum
  let entries := entries.map (fun e =>
    if choice = some e.key then { e with choice := true } else e)
  let entries := entries.mergeSort (fun a b => decide (b.count ≤ a.count))
  let entries := markLast (markFirst entries)
  ((entries, total), { s with tally := t })

/-- Response of `PollBlock.student_view_user_state`: the stored tally is
returned as-is — this handler performs no `clean_tally` call and no write. -/
structure PollUserState where
  choice : Option String
  tally : Dict Int
  submissions_count : Int
deriving DecidableEq

def pollStudentViewUserState (s : PollState) : PollUserState :=
  { choice := getChoice s, tally := s.tally,
    submissions_count := s.submissions_count }

structure SurveyAnswerCell where
  count : Int
  choice : Bool
  key : String
  top : Bool
deriving DecidableEq

structure SurveyTallyRow where
  label : String
  img : String
  imgAlt : String
  answers : List SurveyAnswerCell
  key : String
  choice : Bool
deriving DecidableEq

/-- The `top_index` scan of `SurveyBlock.tally_detail`: first index whose
count strictly exceeds every earlier one, starting from 0. -/
def topIndexGo : List SurveyAnswerCell → Int → Option Nat → Nat → Option Nat
  | [], _, best, _ => best
  | c :: rest, highest, best, idx =>
    if c.count > highest then topIndexGo rest c.count (some idx) (idx + 1)
    else topIndexGo rest highest best (idx + 1)

/-- `question['answers'][top_index]['top'] = True`. -/
def setTopAt : Nat → List SurveyAnswerCell → List SurveyAnswerCell
  | _, [] => []
  | 0, c :: rest => { c with top := true } :: rest
  | n + 1, c :: rest => c :: setTopAt n rest

def markTop (cells : List SurveyAnswerCell) : List SurveyAnswerCell :=
  match topIndexGo cells 0 none 0 with
  | none => cells
  | some i => setTopAt i cells

/-- `SurveyBlock.tally_detail` (percent omitted: floating point).  `total`
is taken from the first entry of the cleaned tally, as the source's
one-iteration loop does. -/
def surveyTallyDetail (md : String → String) (s : SurveyState) :
    (List SurveyTallyRow × Int) × SurveyState :=
  let questions := dictOf (markdown_items md s.questions)
  let default_answers : Dict Int := dictOf (s.answers.map (fun p => (p.1, 0)))
  let choices := s.choices.getD []
  let t := surveyCleanTally (dictOf s.questions) (dictOf s.answers) s.tally
  let total := match t with
    | [] => 0
    | (_, value) :: _ => dvalsum value
  let rows := questions.map (fun p =>
    let answer_set := (dgetD t p.1 []).foldl
      (fun na q => dinsert na q.1 q.2) default_answers
    ({ label := p.2.label, img := p.2.img, imgAlt := p.2.imgAlt,
       answers := answer_set.map (fun q =>
         ({ count := q.2, choice := false, key := q.1, top := false } :
           SurveyAnswerCell)),
       key := p.1, choice := false } : SurveyTallyRow))
  let rows := rows.map (fun row =>
    let cells := row.answers.map (fun cell =>
      if dlookup choices row.key = some cell.key then { cell with choice := true }
      else cell)
    { row with answers := markTop cells })
  ((rows, total), { s with tally := t })

/-- Response of `SurveyBlock.student_view_user_state`: `get_choices()` runs
first (possibly removing a stale vote), then the stored tally is returned
as-is — no `clean_tally` call. -/
structure SurveyUserState where
  choices : Option (Dict String)
  tally : Dict (Dict Int)
  submissions_count : Int
deriving DecidableEq

def surveyStudentViewUserState (s : SurveyState) : SurveyUserState × SurveyState :=
  let r := surveyGetChoices s
  ({ choices := r.1, tally := r.2.tally,
     submissions_count := r.2.submissions_count }, r.2)

theorem mem_dkeys_update_foldl {α : Type} (l : List (String × α)) (d : Dict α)
    (k : String) :
    k ∈ dkeys (l.foldl (fun d p => dinsert d p.1 p.2) d) ↔
      k ∈ dkeys d ∨ k ∈ l.map Prod.fst := by
  induction l generalizing d with
  | nil => simp
  | cons p rest ih =>
    obtain ⟨k₀, v₀⟩ := p
    simp only [List.foldl_cons, ih, mem_dkeys_dinsert, List.map_cons, List.mem_cons]
    tauto

theorem markFirst_keys (l : List TallyEntry) :
    (markFirst l).map (fun e => e.key) = l.map (fun e => e.key) := by
  cases l <;> rfl

theorem markLast_keys : ∀ l : List TallyEntry,
    (markLast l).map (fun e => e.key) = l.map (fun e => e.key)
  | [] => rfl
  | [_] => rfl
  | e :: e2 :: rest => by
    show e.key :: (markLast (e2 :: rest)).map (fun e => e.key) = _
    rw [markLast_keys (e2 :: rest)]
    rfl

theorem setTopAt_keys : ∀ (i : Nat) (l : List SurveyAnswerCell),
    (setTopAt i l).map (fun c => c.key) = l.map (fun c => c.key)
  | 0, [] => rfl
  | _ + 1, [] => rfl
  | 0, _ :: _ => rfl
  | n + 1, c :: rest => by
    show c.key :: (setTopAt n rest).map (fun c => c.key) = _
    rw [setTopAt_keys n rest]
    rfl

theorem markTop_keys (cells : List SurveyAnswerCell) :
    (markTop cells).map (fun c => c.key) = cells.map (fun c => c.key) := by
  unfold markTop
  cases topIndexGo cells 0 none 0 with
  | none => rfl
  | some i => exact setTopAt_keys i cells

theorem markdown_items_keys (md : String → String)
    (items : List (String × PollAnswer)) :
    (markdown_items md items).map Prod.fst = items.map Prod.fst := by
  simp [markdown_items]

theorem mem_map_key_mergeSort (f : TallyEntry → TallyEntry → Bool)
    (l : List TallyEntry) (a : String)
    (h : a ∈ (l.mergeSort f).map (fun e => e.key)) :
    a ∈ l.map (fun e => e.key) := by
  have hperm := (List.mergeSort_perm l f).map (fun e : TallyEntry => e.key)
  exact hperm.mem_iff.mp h

theorem mem_map_key_of_pres {α : Type} (keyf : α → String) (g : α → α)
    (hg : ∀ x, keyf (g x) = keyf x) (l : List α) (a : String)
    (h : a ∈ (l.map g).map keyf) : a ∈ l.map keyf := by
  rw [List.map_map] at h
  have hfun : (keyf ∘ g) = keyf := funext hg
  rwa [hfun] at h

theorem mem_key_of_map_entries {α β : Type} (keyf : β → String)
    (mk : String × α → β) (hmk : ∀ p, keyf (mk p) = p.1)
    (M : List (String × α)) (a : String)
    (h : a ∈ (M.map mk).map keyf) : a ∈ M.map Prod.fst := by
  rw [List.map_map] at h
  have hfun : (keyf ∘ mk) = Prod.fst := by
    funext p
    rw [Function.comp_apply, hmk]
  rwa [hfun] at h

theorem pollTallyDetail_key_mem (md : String → String) (s : PollState)
    (e : TallyEntry) (he : e ∈ (pollTallyDetail md s).1.1) :
    e.key ∈ s.answers.map Prod.fst := by
  have hk : e.key ∈ ((pollTallyDetail md s).1.1).map (fun e => e.key) :=
    List.mem_map_of_mem _ he
  simp only [pollTallyDetail] at hk
  rw [markLast_keys, markFirst_keys] at hk
  have hk2 := mem_map_key_mergeSort _ _ _ hk
  have hk3 := mem_map_key_of_pres (fun e : TallyEntry => e.key) _
    (fun x => by by_cases h : getChoice s = some x.key <;> simp [h]) _ _ hk2
  have hk4 := mem_key_of_map_entries (fun e : TallyEntry => e.key) _
    (fun p => rfl) _ _ hk3
  have hk5 : e.key ∈ dkeys (dictOf (markdown_items md s.answers)) := hk4
  rw [mem_dkeys_dictOf, markdown_items_keys] at hk5
  exact hk5

theorem dkeys_map_zero (ks : List String) :
    dkeys (ks.map (fun a => (a, (0 : Int)))) = ks := by
  unfold dkeys
  rw [List.map_map]
  exact List.map_id ks

theorem surveyCleanTally_sub_keys (Qd : Dict PollAnswer) (Ad : Dict String)
    (t : Dict (Dict Int)) (hQ : (dkeys Qd).Nodup)
    (hsub : ∀ q sub, dlookup t q = some sub → (dkeys sub).Nodup)
    (q k : String)
    (hk : k ∈ dkeys (dgetD (surveyCleanTally Qd Ad t) q [])) :
    k ∈ dkeys Ad := by
  unfold dgetD at hk
  rw [surveyCleanTally_lookup Qd Ad t q hQ] at hk
  by_cases hm : dmember Qd q
  · rw [if_pos hm] at hk
    by_cases ht : dmember t q = false
    · rw [if_pos ht] at hk
      simp only [Option.getD_some] at hk
      rwa [dkeys_map_zero] at hk
    · rw [if_neg ht] at hk
      simp only [Option.getD_some] at hk
      have hex : ∃ sub, dlookup t q = some sub := by
        cases hl : dlookup t q with
        | none =>
          unfold dmember at ht
          rw [hl] at ht
          simp at ht
        | some sub => exact ⟨sub, rfl⟩
      obtain ⟨sub0, hsome⟩ := hex
      have hnd0 : (dkeys (dgetD t q [])).Nodup := by
        unfold dgetD
        rw [hsome]
        exact hsub q sub0 hsome
      by_cases hka : k ∈ dkeys Ad
      · exact hka
      · exfalso
        have hmem := (dmember_iff_mem_dkeys _ k).mpr hk
        unfold dmember at hmem
        rw [surveyCleanSub_lookup (dkeys Ad) (dgetD t q []) k hnd0,
          if_neg hka] at hmem
        simp at hmem
  · rw [if_neg hm] at hk
    simp [dkeys] at hk

theorem surveyTallyDetail_row_mem (md : String → String) (s : SurveyState)
    (hsub : ∀ q sub, dlookup s.tally q = some sub → (dkeys sub).Nodup)
    (row : SurveyTallyRow) (hrow : row ∈ (surveyTallyDetail md s).1.1) :
    row.key ∈ s.questions.map Prod.fst ∧
    ∀ cell ∈ row.answers, cell.key ∈ s.answers.map Prod.fst := by
  simp only [surveyTallyDetail] at hrow
  rw [List.mem_map] at hrow
  obtain ⟨row0, hrow0, hmkrow⟩ := hrow
  rw [List.mem_map] at hrow0
  obtain ⟨p, hp, hmk0⟩ := hrow0
  subst hmk0
  subst hmkrow
  constructor
  · show p.1 ∈ s.questions.map Prod.fst
    have hp1 : p.1 ∈ dkeys (dictOf (markdown_items md s.questions)) :=
      List.mem_map_of_mem Prod.fst hp
    rw [mem_dkeys_dictOf, markdown_items_keys] at hp1
    exact hp1
  · intro cell hcell
    dsimp only at hcell
    have hck := List.mem_map_of_mem (fun c : SurveyAnswerCell => c.key) hcell
    rw [markTop_keys] at hck
    have hck2 := mem_map_key_of_pres (fun c : SurveyAnswerCell => c.key) _
      (fun x => by
        by_cases h : dlookup (s.choices.getD []) p.1 = some x.key <;> simp [h])
      _ _ hck
    have hck3 := mem_key_of_map_entries (fun c : SurveyAnswerCell => c.key) _
      (fun q => rfl) _ _ hck2
    have hck4 : cell.key ∈ dkeys
        ((dgetD (surveyCleanTally (dictOf s.questions) (dictOf s.answers) s.tally)
          p.1 []).foldl (fun na q => dinsert na q.1 q.2)
          (dictOf (s.answers.map (fun p => (p.1, 0))))) := hck3
    rw [mem_dkeys_update_foldl] at hck4
    rcases hck4 with hd | hs2
    · rw [mem_dkeys_dictOf] at hd
      simp only [List.map_map] at hd
      simpa using hd
    · have hsubkey := surveyCleanTally_sub_keys (dictOf s.questions)
        (dictOf s.answers) s.tally (nodup_dkeys_dictOf s.questions) hsub
        p.1 cell.key hs2
      exact (mem_dkeys_dictOf s.answers cell.key).mp hsubkey

/-- C6 (amended): `tally_detail` reconciles before reading, so every key in
its output is configured — for `PollBlock` each row key is a configured
answer key; for `SurveyBlock` each row key is a configured question key and
each cell key a configured answer key.  `student_view_user_state` however
does NOT reconcile: it returns the stored tally as-is in both blocks (for
`SurveyBlock` after the `get_choices()` call, which may remove a stale vote
but never drops stale tally keys), so stale keys can appear there. -/
theorem C6_tally_read_reconciliation (md : String → String) (s : PollState)
    (sv : SurveyState)
    (hsub : ∀ q sub, dlookup sv.tally q = some sub → (dkeys sub).Nodup) :
    (∀ e ∈ (pollTallyDetail md s).1.1, e.key ∈ s.answers.map Prod.fst) ∧
    (∀ row ∈ (surveyTallyDetail md sv).1.1,
      row.key ∈ sv.questions.map Prod.fst ∧
      ∀ cell ∈ row.answers, cell.key ∈ sv.answers.map Prod.fst) ∧
    (pollStudentViewUserState s).tally = s.tally ∧
    (surveyStudentViewUserState sv).1.tally = (surveyGetChoices sv).2.tally :=
  ⟨fun e he => pollTallyDetail_key_mem md s e he,
    fun row hrow => surveyTallyDetail_row_mem md sv hsub row hrow, rfl, rfl⟩

def c6pa : PollAnswer := { label := "Blue", img := "", imgAlt := "" }

/-- A poll with a stale tally key "Z" that is not a configured answer. -/
def c6s : PollState :=
  { question := "q", answers := [("B", c6pa)], tally := [("Z", 3)],
    choice := none, submissions_count := 0, max_submissions := 1,
    private_results := false, feedback := "", display_name := "" }

/-- C6 counterexample: the `student_view_user_state` handler returns the
stored tally without reconciliation, exposing the key "Z" which is not a
configured answer key — contradicting the claim that every operation
reading the tally reconciles first. -/
theorem C6_counterexample :
    "Z" ∈ dkeys (pollStudentViewUserState c6s).tally ∧
    "Z" ∉ c6s.answers.map Prod.fst := by decide

/-- Poll state for the C6 witness. -/
def c6w : PollState :=
  { question := "q", answers := [("B", c6pa)], tally := [("B", 2)],
    choice := none, submissions_count := 0, max_submissions := 1,
    private_results := false, feedback := "", display_name := "" }

/-- Survey state for the C6 witness. -/
def c6sv : SurveyState :=
  { questions := [("q1", c6pa)], answers := [("Y", "Yes")],
    tally := [("q1", [("Y", 3)])], choices := none,
    submissions_count := 0, max_submissions := 1, private_results := false,
    feedback := "", block_name := "" }

theorem C6_witness :
    (TallyEntry.mk 2 "Blue" "" "" "B" true false true) ∈
      (pollTallyDetail (fun x => x) c6w).1.1 ∧
    "B" ∈ c6w.answers.map Prod.fst := by
  have hsub : ∀ q sub, dlookup c6sv.tally q = some sub → (dkeys sub).Nodup := by
    intro q sub h
    have h' : dlookup [("q1", [("Y", (3 : Int))])] q = some sub := h
    unfold dlookup at h'
    split at h'
    · injection h' with h'
      subst h'
      decide
    · cases h'
  have hmem : (TallyEntry.mk 2 "Blue" "" "" "B" true false true) ∈
      (pollTallyDetail (fun x => x) c6w).1.1 := by
    show (TallyEntry.mk 2 "Blue" "" "" "B" true false true) ∈
      markLast (markFirst (List.mergeSort [TallyEntry.mk 2 "Blue" "" "" "B" false false false]
        (fun a b => decide (b.count ≤ a.count))))
    rw [List.mergeSort_singleton]
    decide
  exact ⟨hmem,
    (C6_tally_read_reconciliation (fun x => x) c6w c6sv hsub).1 _ hmem⟩

/-- The `result['success'] = False; result['errors'].append(msg)` pair of
the vote handlers. -/
def voteFail (r : VoteResult) (msg : String) : VoteResult :=
  { r with success := false, errors := r.errors ++ [msg] }

/-- The validation chain of `SurveyBlock.vote`: already-voted (when results
are public), submission limit, exact question key set (Python compares
sorted key lists), and known answer values; every failure records an error
and sets success to False. -/
def surveyVoteChecks (private_results : Bool) (choices : Option (Dict String))
    (s2 : SurveyState) (questions : Dict PollAnswer) (answers : Dict String)
    (data : Dict String) : VoteResult :=
  let r : VoteResult :=
    { success := true, errors := [], can_vote := none, submissions_count := none,
      max_submissions := none }
  let r := if choicesTruthy choices && !private_results then
      voteFail r "You have already voted in this poll."
    else r
  let r := if !(can_vote s2.max_submissions s2.submissions_count) then
      voteFail r "You have already voted as many times as you are allowed."
    else r
  let r := if ¬ (Multiset.ofList (dkeys data) = Multiset.ofList (dkeys questions)) then
      voteFail r "Not all questions were included, or unknown questions were included."
    else r
  data.foldl
    (fun r p =>
      if !(dmember answers p.2) then
        voteFail r ("Found unknown answer for question key " ++ p.1)
      else r)
    r

/-- The commit phase of `SurveyBlock.vote` once all checks passed: remove a
still-recorded vote, store the submitted choices, clean the tally,
increment each chosen pair and the submission count. -/
def surveyVoteCommit (s2 : SurveyState) (data : Dict String) : SurveyState :=
  let s3 := if choicesTruthy s2.choices then surveyRemoveVote s2 else s2
  let s4 := { s3 with choices := some data }
  let t := surveyCleanTally (dictOf s4.questions) (dictOf s4.answers) s4.tally
  let t := data.foldl
    (fun t p => dmodify t p.1 (fun sub => dmodify sub p.2 (fun n => n + 1))) t
  { s4 with tally := t, submissions_count := s4.submissions_count + 1 }

/-- The state after the `if not choices: self.submissions_count = 0` reset
of `SurveyBlock.vote` (applied to the state `get_choices()` left behind). -/
def surveyVoteS2 (s0 : SurveyState) : SurveyState :=
  if !(choicesTruthy (surveyGetChoices s0).1) then
    { (surveyGetChoices s0).2 with submissions_count := 0 }
  else (surveyGetChoices s0).2

/-- `SurveyBlock.vote`.  `data` is the submitted question→answer mapping (a
JSON object, hence duplicate-free keys on reachable inputs).
`get_choices()` runs first and may itself remove a stale vote; the
submission count is reset when the user has no still-valid choices, even on
failure paths. -/
def surveyVote (s0 : SurveyState) (data : Dict String) : VoteResult × SurveyState :=
  let s2 := surveyVoteS2 s0
  let r := surveyVoteChecks s0.private_results (surveyGetChoices s0).1 s2
    (dictOf s0.questions) (dictOf s0.answers) data
  if !r.success then
    ({ r with can_vote := some (can_vote s2.max_submissions s2.submissions_count) }, s2)
  else
    let s5 := surveyVoteCommit s2 data
    ({ success := true, errors := [],
       can_vote := some (can_vote s5.max_submissions s5.submissions_count),
       submissions_count := some s5.submissions_count,
       max_submissions := some s5.max_submissions }, s5)

theorem dlookup_mem_pair {α : Type} (d : Dict α) (k : String) (v : α)
    (h : dlookup d k = some v) : (k, v) ∈ d := by
  induction d with
  | nil => simp [dlookup] at h
  | cons p rest ih =>
    obtain ⟨k₀, v₀⟩ := p
    by_cases hk : k₀ = k
    · subst hk
      simp [dlookup] at h
      subst h
      exact List.mem_cons_self _ _
    · simp [dlookup, hk] at h
      exact List.mem_cons_of_mem _ (ih h)

theorem incFold_lookup2 (m : Dict String) (t : Dict (Dict Int)) (q a : String)
    (hnd : (dkeys m).Nodup) :
    dlookup2 (m.foldl
      (fun t p => dmodify t p.1 (fun sub => dmodify sub p.2 (fun n => n + 1))) t)
      q a =
    if dlookup m q = some a then (dlookup2 t q a).map (fun n => n + 1)
    else dlookup2 t q a := by
  induction m generalizing t with
  | nil => simp [dlookup]
  | cons p rest ih =>
    obtain ⟨q₀, v₀⟩ := p
    have hcons : dkeys ((q₀, v₀) :: rest) = q₀ :: dkeys rest := rfl
    rw [hcons, List.nodup_cons] at hnd
    simp only [List.foldl_cons]
    rw [ih _ hnd.2]
    by_cases hq : q₀ = q
    · subst hq
      have hrest : dlookup rest q₀ = none := (dlookup_eq_none_iff rest q₀).mpr hnd.1
      have hhead : dlookup ((q₀, v₀) :: rest) q₀ = some v₀ := by
        simp [dlookup]
      rw [if_neg (by simp [hrest]), hhead]
      unfold dlookup2
      rw [dlookup_dmodify, if_pos rfl]
      by_cases hva : v₀ = a
      · subst hva
        rw [if_pos rfl]
        cases hs : dlookup t q₀ with
        | none => simp
        | some sub =>
          show dlookup (dmodify sub v₀ (fun n => n + 1)) v₀ = _
          rw [dlookup_dmodify, if_pos rfl]
      · rw [if_neg (by intro hc; injection hc with hc; exact hva hc)]
        cases hs : dlookup t q₀ with
        | none => simp
        | some sub =>
          show dlookup (dmodify sub v₀ (fun n => n + 1)) a = _
          rw [dlookup_dmodify, if_neg hva]
    · have hlk : dlookup ((q₀, v₀) :: rest) q = dlookup rest q := by
        simp [dlookup, hq]
      rw [hlk, dlookup2_dmodify_other t q₀ q a _ hq]

theorem removeFold_wf (Q : Dict PollAnswer) (A : Dict String) (m : Dict String)
    (t : Dict (Dict Int))
    (hwf : ∀ q sub, dlookup t q = some sub → (dkeys sub).Nodup) :
    ∀ q sub, dlookup (m.foldl
      (fun t p =>
        if dmember Q p.1 then
          if dmember A p.2 then
            dmodify t p.1 (fun sub => dmodify sub p.2 (fun n => n - 1))
          else t
        else t)
      t) q = some sub → (dkeys sub).Nodup := by
  induction m generalizing t with
  | nil => exact hwf
  | cons p rest ih =>
    simp only [List.foldl_cons]
    apply ih
    intro q sub h
    by_cases hQ : dmember Q p.1
    · by_cases hA : dmember A p.2
      · rw [if_pos hQ, if_pos hA, dlookup_dmodify] at h
        by_cases hq : p.1 = q
        · rw [if_pos hq] at h
          cases hl : dlookup t p.1 with
          | none => rw [hl] at h; cases h
          | some sub0 =>
            rw [hl] at h
            injection h with h
            subst h
            rw [dkeys_dmodify]
            exact hwf _ _ hl
        · rw [if_neg hq] at h
          exact hwf _ _ h
      · rw [if_pos hQ, if_neg hA] at h
        exact hwf _ _ h
    · rw [if_neg hQ] at h
      exact hwf _ _ h

theorem dgetD2_eq_lookup2 (t : Dict (Dict Int)) (q a : String) :
    dgetD2 t q a = (dlookup2 t q a).getD 0 := by
  unfold dgetD2 dgetD dlookup2
  cases hl : dlookup t q with
  | none => rfl
  | some sub => rfl

theorem surveyRemoveVote_fields (s : SurveyState) :
    (surveyRemoveVote s).submissions_count = s.submissions_count ∧
    (surveyRemoveVote s).questions = s.questions ∧
    (surveyRemoveVote s).answers = s.answers ∧
    (surveyRemoveVote s).max_submissions = s.max_submissions ∧
    (surveyRemoveVote s).choices = none :=
  ⟨rfl, rfl, rfl, rfl, rfl⟩

theorem surveyGetChoices_snd (s : SurveyState) :
    (surveyGetChoices s).2 = s ∨ (surveyGetChoices s).2 = surveyRemoveVote s := by
  unfold surveyGetChoices
  cases s.choices with
  | none => left; rfl
  | some m =>
    dsimp only
    split
    · right; rfl
    · split
      · right; rfl
      · left; rfl

theorem voteFail_ite_success (c : Prop) [inst : Decidable c] (r : VoteResult)
    (msg : String) (h : (if c then voteFail r msg else r).success = true) :
    ¬ c ∧ (if c then voteFail r msg else r) = r := by
  by_cases hc : c
  · rw [if_pos hc] at h
    simp [voteFail] at h
  · exact ⟨hc, if_neg hc⟩

theorem valueFold_success (A : Dict String) (data : List (String × String)) :
    ∀ r : VoteResult,
      (data.foldl
        (fun r p =>
          if !(dmember A p.2) then
            voteFail r ("Found unknown answer for question key " ++ p.1)
          else r) r).success = true →
      r.success = true ∧ ∀ p ∈ data, dmember A p.2 = true := by
  induction data with
  | nil =>
    intro r h
    exact ⟨h, by simp⟩
  | cons p rest ih =>
    intro r h
    simp only [List.foldl_cons] at h
    obtain ⟨hstep, hrest⟩ := ih _ h
    by_cases hm : dmember A p.2 = true
    · rw [if_neg (by simp [hm])] at hstep
      refine ⟨hstep, ?_⟩
      intro p' hp'
      rcases List.mem_cons.mp hp' with he | he
      · subst he
        exact hm
      · exact hrest p' he
    · rw [if_pos (by simp [Bool.not_eq_true] at hm ⊢; exact hm)] at hstep
      simp [voteFail] at hstep

theorem surveyVoteChecks_success (pr : Bool) (co : Option (Dict String))
    (s2 : SurveyState) (Q : Dict PollAnswer) (A : Dict String)
    (data : Dict String)
    (h : (surveyVoteChecks pr co s2 Q A data).success = true) :
    Multiset.ofList (dkeys data) = Multiset.ofList (dkeys Q) ∧
    (∀ p ∈ data, dmember A p.2 = true) ∧
    ¬ (choicesTruthy co && !pr) = true := by
  unfold surveyVoteChecks at h
  obtain ⟨h3, hvals⟩ := valueFold_success A data _ h
  obtain ⟨hK, he3⟩ := voteFail_ite_success _ _ _ h3
  rw [he3] at h3
  obtain ⟨hcv, he2⟩ := voteFail_ite_success _ _ _ h3
  rw [he2] at h3
  obtain ⟨hc1, he1⟩ := voteFail_ite_success _ _ _ h3
  exact ⟨not_not.mp hK, hvals, hc1⟩

theorem surveyCleanTally_lookup2 (questions : List (String × PollAnswer))
    (answers : List (String × String)) (t : Dict (Dict Int))
    (hsub : ∀ q sub, dlookup t q = some sub → (dkeys sub).Nodup)
    (q a : String) (hq : q ∈ questions.map Prod.fst) :
    dlookup2 (surveyCleanTally (dictOf questions) (dictOf answers) t) q a =
      if a ∈ answers.map Prod.fst then some (dgetD2 t q a) else none := by
  have hQnd : (dkeys (dictOf questions)).Nodup := nodup_dkeys_dictOf questions
  have hql := surveyCleanTally_lookup (dictOf questions) (dictOf answers) t q hQnd
  have hm : dmember (dictOf questions) q = true := by
    rw [dmember_iff_mem_dkeys, mem_dkeys_dictOf]
    exact hq
  have hiffa : a ∈ dkeys (dictOf answers) ↔ a ∈ answers.map Prod.fst :=
    mem_dkeys_dictOf answers a
  unfold dlookup2
  rw [hql, if_pos hm]
  by_cases ht : dmember t q = false
  · rw [if_pos ht]
    show dlookup ((dkeys (dictOf answers)).map (fun a => (a, 0))) a = _
    rw [dlookup_map_zero]
    have htq : dlookup t q = none := by
      cases hl : dlookup t q with
      | none => rfl
      | some sub =>
        unfold dmember at ht
        rw [hl] at ht
        cases ht
    have hzero : dgetD2 t q a = 0 := by
      unfold dgetD2 dgetD
      rw [htq]
      rfl
    by_cases haa : a ∈ answers.map Prod.fst
    · rw [if_pos (hiffa.mpr haa), if_pos haa, hzero]
    · rw [if_neg (fun hc => haa (hiffa.mp hc)), if_neg haa]
  · rw [if_neg ht]
    have hex : ∃ sub, dlookup t q = some sub := by
      cases hl : dlookup t q with
      | none =>
        unfold dmember at ht
        rw [hl] at ht
        simp at ht
      | some sub => exact ⟨sub, rfl⟩
    obtain ⟨sub, hsome⟩ := hex
    have hnd' : (dkeys (dgetD t q [])).Nodup := by
      unfold dgetD
      rw [hsome]
      exact hsub q sub hsome
    show dlookup (surveyCleanSub ((dkeys (dictOf answers)).map (fun a => (a, 0)))
      (dgetD t q [])) a = _
    rw [surveyCleanSub_lookup _ _ _ hnd']
    by_cases haa : a ∈ answers.map Prod.fst
    · rw [if_pos (hiffa.mpr haa), if_pos haa]
      rfl
    · rw [if_neg (fun hc => haa (hiffa.mp hc)), if_neg haa]

theorem surveyVote_tally_clean_inc (questions : List (String × PollAnswer))
    (answers : List (String × String)) (t3 : Dict (Dict Int)) (data : Dict String)
    (hndData : (dkeys data).Nodup)
    (hwf3 : ∀ q sub, dlookup t3 q = some sub → (dkeys sub).Nodup)
    (q a : String) (hda : dlookup data q = some a)
    (hq : q ∈ questions.map Prod.fst) (ha : a ∈ answers.map Prod.fst) :
    dlookup2 (data.foldl
      (fun t p => dmodify t p.1 (fun sub => dmodify sub p.2 (fun n => n + 1)))
      (surveyCleanTally (dictOf questions) (dictOf answers) t3)) q a =
    some (dgetD2 t3 q a + 1) := by
  rw [incFold_lookup2 _ _ _ _ hndData, if_pos hda,
    surveyCleanTally_lookup2 questions answers t3 hwf3 q a hq, if_pos ha]
  rfl

theorem surveyVoteCommit_sc (s2 : SurveyState) (data : Dict String) :
    (surveyVoteCommit s2 data).submissions_count = s2.submissions_count + 1 := by
  simp only [surveyVoteCommit]
  split <;> rfl

theorem surveyVoteCommit_choices (s2 : SurveyState) (data : Dict String) :
    (surveyVoteCommit s2 data).choices = some data := by
  simp only [surveyVoteCommit]

theorem surveyVoteCommit_tally (s2 : SurveyState) (data : Dict String) :
    (surveyVoteCommit s2 data).tally =
      data.foldl
        (fun t p => dmodify t p.1 (fun sub => dmodify sub p.2 (fun n => n + 1)))
        (surveyCleanTally (dictOf s2.questions) (dictOf s2.answers)
          (if choicesTruthy s2.choices then surveyRemoveVote s2 else s2).tally) := by
  simp only [surveyVoteCommit]
  split <;> rfl

theorem surveyVote_success_shape (s0 : SurveyState) (data : Dict String)
    (r : VoteResult) (s' : SurveyState)
    (hv : surveyVote s0 data = (r, s')) (hs : r.success = true) :
    (surveyVoteChecks s0.private_results (surveyGetChoices s0).1 (surveyVoteS2 s0)
      (dictOf s0.questions) (dictOf s0.answers) data).success = true ∧
    s' = surveyVoteCommit (surveyVoteS2 s0) data := by
  simp only [surveyVote] at hv
  by_cases hcs : (surveyVoteChecks s0.private_results (surveyGetChoices s0).1
      (surveyVoteS2 s0) (dictOf s0.questions) (dictOf s0.answers) data).success = true
  · rw [if_neg (by simp [hcs])] at hv
    injection hv with h1 h2
    exact ⟨hcs, h2.symm⟩
  · exfalso
    have hfalse : (surveyVoteChecks s0.private_results (surveyGetChoices s0).1
        (surveyVoteS2 s0) (dictOf s0.questions) (dictOf s0.answers) data).success
        = false := by
      cases hb : (surveyVoteChecks s0.private_results (surveyGetChoices s0).1
          (surveyVoteS2 s0) (dictOf s0.questions) (dictOf s0.answers) data).success with
      | false => rfl
      | true => exact absurd hb hcs
    rw [if_pos (by simp [hfalse])] at hv
    injection hv with h1 h2
    rw [← h1] at hs
    exact hcs hs

theorem any_not_member_false (A : Dict String) (m : Dict String) :
    (m.any (fun p => !(dmember A p.2))) = false ↔
      (∀ p ∈ m, dmember A p.2 = true) := by
  constructor
  · intro h p hp
    by_cases hd : dmember A p.2 = true
    · exact hd
    · exfalso
      have : m.any (fun p => !(dmember A p.2)) = true :=
        List.any_eq_true.mpr ⟨p, hp, by simp [hd]⟩
      rw [h] at this
      cases this
  · intro h
    by_cases ha : m.any (fun p => !(dmember A p.2)) = true
    · obtain ⟨p, hp, hb⟩ := List.any_eq_true.mp ha
      rw [h p hp] at hb
      cases hb
    · cases hc : m.any (fun p => !(dmember A p.2)) with
      | false => rfl
      | true => exact absurd hc ha

theorem surveyRemoveVote_tally (x : SurveyState) :
    (surveyRemoveVote x).tally =
      (x.choices.getD []).foldl
        (fun t p =>
          if dmember (dictOf x.questions) p.1 then
            if dmember (dictOf x.answers) p.2 then
              dmodify t p.1 (fun sub => dmodify sub p.2 (fun n => n - 1))
            else t
          else t)
        x.tally := rfl

theorem surveyVoteS2_fields (s : SurveyState) :
    (surveyVoteS2 s).questions = s.questions ∧
    (surveyVoteS2 s).answers = s.answers ∧
    (surveyVoteS2 s).max_submissions = s.max_submissions ∧
    (surveyVoteS2 s).choices = (surveyGetChoices s).2.choices ∧
    (surveyVoteS2 s).tally = (surveyGetChoices s).2.tally := by
  unfold surveyVoteS2
  rcases surveyGetChoices_snd s with h | h <;> rw [h] <;> split <;>
    exact ⟨rfl, rfl, rfl, rfl, rfl⟩

theorem surveyVoteS2_sc (s : SurveyState) :
    (surveyVoteS2 s).submissions_count =
      if choicesTruthy (surveyGetChoices s).1 then s.submissions_count else 0 := by
  unfold surveyVoteS2
  cases hct : choicesTruthy (surveyGetChoices s).1
  · simp [hct]
  · simp only [hct, Bool.not_true, Bool.false_eq_true, if_false, if_true]
    rcases surveyGetChoices_snd s with h | h
    · rw [h]
    · rw [h]
      rfl

theorem surveyVote_tally_removed (s : SurveyState) (m : Dict String)
    (data : Dict String) (hndData : (dkeys data).Nodup)
    (hwf : ∀ q sub, dlookup s.tally q = some sub → (dkeys sub).Nodup)
    (hndm : (dkeys m).Nodup)
    (hpresm : ∀ p ∈ m, dmember (dictOf s.questions) p.1 = true →
      dmember (dictOf s.answers) p.2 = true →
      (dlookup2 s.tally p.1 p.2).isSome = true)
    (q a : String) (hda : dlookup data q = some a)
    (hqQl : q ∈ s.questions.map Prod.fst)
    (hmemQ : dmember (dictOf s.questions) q = true)
    (hmemA : dmember (dictOf s.answers) a = true)
    (haA : a ∈ s.answers.map Prod.fst) :
    dlookup2 (data.foldl
      (fun t p => dmodify t p.1 (fun sub => dmodify sub p.2 (fun n => n + 1)))
      (surveyCleanTally (dictOf s.questions) (dictOf s.answers)
        (m.foldl
          (fun t p =>
            if dmember (dictOf s.questions) p.1 then
              if dmember (dictOf s.answers) p.2 then
                dmodify t p.1 (fun sub => dmodify sub p.2 (fun n => n - 1))
              else t
            else t)
          s.tally))) q a =
    some (dgetD2 s.tally q a + 1 - (if dlookup m q = some a then 1 else 0)) := by
  have hwf3 := removeFold_wf (dictOf s.questions) (dictOf s.answers) m s.tally hwf
  rw [surveyVote_tally_clean_inc s.questions s.answers _ data hndData hwf3 q a hda
    hqQl haA]
  have hrm := removeFold_lookup2 (dictOf s.questions) (dictOf s.answers) m
    s.tally q a hndm
  by_cases hLm : dlookup m q = some a
  · have hpp := hpresm (q, a) (dlookup_mem_pair m q a hLm) hmemQ hmemA
    obtain ⟨v, hval⟩ := Option.isSome_iff_exists.mp hpp
    rw [if_pos ⟨hLm, hmemQ, hmemA⟩, hval] at hrm
    rw [if_pos hLm, dgetD2_eq_lookup2, hrm, dgetD2_eq_lookup2, hval]
    show some ((v - 1) + 1) = some (v + 1 - 1)
    congr 1
    ring
  · rw [if_neg (fun hc => hLm hc.1)] at hrm
    rw [if_neg hLm, dgetD2_eq_lookup2, hrm, ← dgetD2_eq_lookup2]
    congr 1
    ring

/-- C2 (amended): `SurveyBlock.vote` succeeds only when the submitted
question key multiset equals the configured one and every submitted answer
value is a configured answer key; on success it stores the submitted
mapping as the user's choices and increments `tally[q][a]` by exactly 1 for
each submitted pair (after first removing the user's previous still-valid
recorded vote from the tally, whether that removal happened inside
`get_choices` or in `vote` itself); `submissions_count` is reset to 0 when
the user had no still-valid recorded choices and then incremented by 1 (so
it rises by exactly 1 only on a re-vote). -/
theorem C2_survey_vote_success_effects (s : SurveyState) (data : Dict String)
    (r : VoteResult) (s' : SurveyState)
    (hv : surveyVote s data = (r, s')) (hs : r.success = true)
    (hndData : (dkeys data).Nodup)
    (hwf : ∀ q sub, dlookup s.tally q = some sub → (dkeys sub).Nodup)
    (hndM : ∀ m, s.choices = some m → (dkeys m).Nodup)
    (hpres : ∀ m, s.choices = some m → ∀ p ∈ m,
      dmember (dictOf s.questions) p.1 = true →
      dmember (dictOf s.answers) p.2 = true →
      (dlookup2 s.tally p.1 p.2).isSome = true) :
    Multiset.ofList (dkeys data) = Multiset.ofList (dkeys (dictOf s.questions)) ∧
    (∀ p ∈ data, dmember (dictOf s.answers) p.2 = true) ∧
    s'.choices = some data ∧
    s'.submissions_count =
      (if choicesTruthy (surveyGetChoices s).1 then s.submissions_count else 0) + 1 ∧
    (∀ q a, dlookup data q = some a →
      dlookup2 s'.tally q a = some (dgetD2 s.tally q a + 1 -
        (match s.choices with
         | some m => if dlookup m q = some a then 1 else 0
         | none => 0))) := by
  obtain ⟨hcs, hse⟩ := surveyVote_success_shape s data r s' hv hs
  subst hse
  obtain ⟨hK, hvals, hc1⟩ := surveyVoteChecks_success _ _ _ _ _ _ hcs
  refine ⟨hK, hvals, surveyVoteCommit_choices _ _, ?_, ?_⟩
  · rw [surveyVoteCommit_sc, surveyVoteS2_sc]
  · intro q a hda
    have hqd : q ∈ dkeys data := by
      rw [← dmember_iff_mem_dkeys]
      unfold dmember
      rw [hda]
      rfl
    have hqQ : q ∈ dkeys (dictOf s.questions) := by
      have h1 : q ∈ Multiset.ofList (dkeys data) := by
        exact_mod_cast hqd
      rw [hK] at h1
      exact_mod_cast h1
    have hqQl : q ∈ s.questions.map Prod.fst := (mem_dkeys_dictOf _ _).mp hqQ
    have hmemQ : dmember (dictOf s.questions) q = true :=
      (dmember_iff_mem_dkeys _ _).mpr hqQ
    have hpa : (q, a) ∈ data := dlookup_mem_pair data q a hda
    have hmemA : dmember (dictOf s.answers) a = true := hvals (q, a) hpa
    have haA : a ∈ s.answers.map Prod.fst :=
      (mem_dkeys_dictOf _ _).mp ((dmember_iff_mem_dkeys _ _).mp hmemA)
    rw [surveyVoteCommit_tally, (surveyVoteS2_fields s).1, (surveyVoteS2_fields s).2.1]
    cases hm0 : s.choices with
    | none =>
      have hgc2 : surveyGetChoices s = (none, s) := by
        simp only [surveyGetChoices, hm0]
      have hS2ch : (surveyVoteS2 s).choices = none := by
        rw [(surveyVoteS2_fields s).2.2.2.1, hgc2]
        exact hm0
      have hct3 : choicesTruthy (surveyVoteS2 s).choices = false := by
        rw [hS2ch]
        rfl
      have hT3 : (if choicesTruthy (surveyVoteS2 s).choices = true then
          surveyRemoveVote (surveyVoteS2 s) else surveyVoteS2 s).tally = s.tally := by
        rw [if_neg (by simp [hct3]), (surveyVoteS2_fields s).2.2.2.2, hgc2]
      rw [hT3, surveyVote_tally_clean_inc s.questions s.answers s.tally data hndData
        hwf q a hda hqQl haA]
      simp
    | some m =>
      have hndm := hndM m hm0
      have hpresm := hpres m hm0
      by_cases hKm : Multiset.ofList (dkeys (dictOf s.questions)) =
          Multiset.ofList (dkeys m)
      · by_cases hVm : ∀ p ∈ m, dmember (dictOf s.answers) p.2 = true
        · -- valid stored choices: get_choices returns them unchanged
          have hgc2 : surveyGetChoices s = (some m, s) := by
            simp only [surveyGetChoices, hm0]
            rw [if_neg (not_not_intro hKm), if_neg ?_]
            intro hc
            rw [(any_not_member_false (dictOf s.answers) m).mpr hVm] at hc
            cases hc
          have hS2ch : (surveyVoteS2 s).choices = some m := by
            rw [(surveyVoteS2_fields s).2.2.2.1, hgc2]
            exact hm0
          by_cases hmE : m = []
          · subst hmE
            have hct3 : choicesTruthy (surveyVoteS2 s).choices = false := by
              rw [hS2ch]
              rfl
            have hT3 : (if choicesTruthy (surveyVoteS2 s).choices = true then
                surveyRemoveVote (surveyVoteS2 s) else surveyVoteS2 s).tally
                = s.tally := by
              rw [if_neg (by simp [hct3]), (surveyVoteS2_fields s).2.2.2.2, hgc2]
            rw [hT3, surveyVote_tally_clean_inc s.questions s.answers s.tally data
              hndData hwf q a hda hqQl haA]
            simp [dlookup]
          · have hct3 : choicesTruthy (surveyVoteS2 s).choices = true := by
              rw [hS2ch]
              unfold choicesTruthy
              cases m with
              | nil => exact absurd rfl hmE
              | cons p rest => rfl
            have hT3 : (if choicesTruthy (surveyVoteS2 s).choices = true then
                surveyRemoveVote (surveyVoteS2 s) else surveyVoteS2 s).tally =
                m.foldl
                  (fun t p =>
                    if dmember (dictOf s.questions) p.1 then
                      if dmember (dictOf s.answers) p.2 then
                        dmodify t p.1 (fun sub => dmodify sub p.2 (fun n => n - 1))
                      else t
                    else t)
                  s.tally := by
              rw [if_pos hct3, surveyRemoveVote_tally, hS2ch,
                (surveyVoteS2_fields s).1, (surveyVoteS2_fields s).2.1,
                (surveyVoteS2_fields s).2.2.2.2, hgc2]
              rfl
            rw [hT3, surveyVote_tally_removed s m data hndData hwf hndm hpresm
              q a hda hqQl hmemQ hmemA haA]
        · -- stored choices invalid: get_choices already removed them
          have hgc2 : surveyGetChoices s = (none, surveyRemoveVote s) := by
            simp only [surveyGetChoices, hm0]
            rw [if_neg (not_not_intro hKm), if_pos ?_]
            cases hc : m.any (fun p => !(dmember (dictOf s.answers) p.2)) with
            | true => rfl
            | false => exact absurd ((any_not_member_false _ m).mp hc) hVm
          have hS2ch : (surveyVoteS2 s).choices = none := by
            rw [(surveyVoteS2_fields s).2.2.2.1, hgc2]
            rfl
          have hct3 : choicesTruthy (surveyVoteS2 s).choices = false := by
            rw [hS2ch]
            rfl
          have hT3 : (if choicesTruthy (surveyVoteS2 s).choices = true then
              surveyRemoveVote (surveyVoteS2 s) else surveyVoteS2 s).tally =
              m.foldl
                (fun t p =>
                  if dmember (dictOf s.questions) p.1 then
                    if dmember (dictOf s.answers) p.2 then
                      dmodify t p.1 (fun sub => dmodify sub p.2 (fun n => n - 1))
                    else t
                  else t)
                s.tally := by
            rw [if_neg (by simp [hct3]), (surveyVoteS2_fields s).2.2.2.2, hgc2]
            show (surveyRemoveVote s).tally = _
            rw [surveyRemoveVote_tally, hm0]
            rfl
          rw [hT3, surveyVote_tally_removed s m data hndData hwf hndm hpresm
            q a hda hqQl hmemQ hmemA haA]
      · -- question keys changed: get_choices already removed the vote
        have hgc2 : surveyGetChoices s = (none, surveyRemoveVote s) := by
          simp only [surveyGetChoices, hm0]
          rw [if_pos hKm]
        have hS2ch : (surveyVoteS2 s).choices = none := by
          rw [(surveyVoteS2_fields s).2.2.2.1, hgc2]
          rfl
        have hct3 : choicesTruthy (surveyVoteS2 s).choices = false := by
          rw [hS2ch]
          rfl
        have hT3 : (if choicesTruthy (surveyVoteS2 s).choices = true then
            surveyRemoveVote (surveyVoteS2 s) else surveyVoteS2 s).tally =
            m.foldl
              (fun t p =>
                if dmember (dictOf s.questions) p.1 then
                  if dmember (dictOf s.answers) p.2 then
                    dmodify t p.1 (fun sub => dmodify sub p.2 (fun n => n - 1))
                  else t
                else t)
              s.tally := by
          rw [if_neg (by simp [hct3]), (surveyVoteS2_fields s).2.2.2.2, hgc2]
          show (surveyRemoveVote s).tally = _
          rw [surveyRemoveVote_tally, hm0]
          rfl
        rw [hT3, surveyVote_tally_removed s m data hndData hwf hndm hpresm
          q a hda hqQl hmemQ hmemA haA]

/-- A survey state whose stored choices reference a question that no longer
exists, with a nonzero submission count. -/
def c2ex : SurveyState :=
  { questions := [("q1", { label := "Q1", img := "", imgAlt := "" })],
    answers := [("Y", "Yes")],
    tally := [("q1", [("Y", 5)])],
    choices := some [("oldq", "Y")],
    submissions_count := 2, max_submissions := 0, private_results := false,
    feedback := "", block_name := "" }

/-- C2 counterexample: this vote succeeds, yet `submissions_count` goes from
2 to 1 (get_choices removes the stale vote and returns None, and the code
then resets the count to 0 before incrementing), so it is not "incremented
by 1" as the claim states. -/
theorem C2_counterexample :
    (surveyVote c2ex [("q1", "Y")]).1.success = true ∧
    (surveyVote c2ex [("q1", "Y")]).2.submissions_count ≠
      c2ex.submissions_count + 1 := by decide

/-- A survey state for exercising the amended C2 theorem: a private survey
where the user re-votes, switching the answer of the single question. -/
def c2w : SurveyState :=
  { questions := [("q1", { label := "Q1", img := "", imgAlt := "" })],
    answers := [("Y", "Yes"), ("N", "No")],
    tally := [("q1", [("Y", 1), ("N", 0)])],
    choices := some [("q1", "Y")],
    submissions_count := 1, max_submissions := 2, private_results := true,
    feedback := "", block_name := "" }

theorem C2_witness :
    (surveyVote c2w [("q1", "N")]).1.success = true ∧
    (surveyVote c2w [("q1", "N")]).2.choices = some [("q1", "N")] ∧
    dlookup2 (surveyVote c2w [("q1", "N")]).2.tally "q1" "N" = some 1 := by
  have hwf : ∀ q sub, dlookup c2w.tally q = some sub → (dkeys sub).Nodup := by
    intro q sub h
    have h' : dlookup [("q1", [("Y", (1 : Int)), ("N", 0)])] q = some sub := h
    unfold dlookup at h'
    split at h'
    · injection h' with h'
      subst h'
      decide
    · cases h'
  have hndM : ∀ m, c2w.choices = some m → (dkeys m).Nodup := by
    intro m h
    have h' : some [("q1", "Y")] = some m := h
    injection h' with h'
    subst h'
    decide
  have hpres : ∀ m, c2w.choices = some m → ∀ p ∈ m,
      dmember (dictOf c2w.questions) p.1 = true →
      dmember (dictOf c2w.answers) p.2 = true →
      (dlookup2 c2w.tally p.1 p.2).isSome = true := by
    intro m h p hp h1 h2
    have h' : some [("q1", "Y")] = some m := h
    injection h' with h'
    subst h'
    rw [List.mem_singleton] at hp
    subst hp
    decide
  have hs : (surveyVote c2w [("q1", "N")]).1.success = true := by decide
  have h := C2_survey_vote_success_effects c2w [("q1", "N")]
    (surveyVote c2w [("q1", "N")]).1 (surveyVote c2w [("q1", "N")]).2
    rfl hs (by decide) hwf hndM hpres
  refine ⟨hs, h.2.2.1, ?_⟩
  have ht := h.2.2.2.2 "q1" "N" (by decide)
  rw [ht]
  decide
